import Mathlib

/-!
Verification of the fw-ai/chat streaming-chat core against its specification.

The TypeScript sources are shallowly embedded: JS strings become `List Char`
(written `Str`), numbers used by the code become `Nat`/`Rat` as appropriate,
`Date.now()` becomes an explicit `now : Nat` parameter, and module-level
mutable maps become explicit state values threaded through the operations.
-/

/-- JS strings, modelled as lists of characters. -/
abbrev Str := List Char

/-- Whitespace as recognized by `String.prototype.trim` (common code points). -/
def wsChar (c : Char) : Bool :=
  c = ' ' || c = '\t' || c = '\n' || c = '\r' || c = '\x0b' || c = '\x0c'

/-- `String.prototype.trim`: strip whitespace from both ends. -/
def jsTrim (s : Str) : Str :=
  ((s.dropWhile wsChar).reverse.dropWhile wsChar).reverse

/-- `pat` occurs in `s` starting at index `i`. -/
def occursAtP (pat s : Str) (i : Nat) : Prop :=
  (s.drop i).take pat.length = pat

instance (pat s : Str) (i : Nat) : Decidable (occursAtP pat s i) := by
  unfold occursAtP; infer_instance

/-- Boolean form of `occursAtP`. -/
def occursAtB (pat s : Str) (i : Nat) : Bool :=
  decide (occursAtP pat s i)

/-- Index of the first occurrence of `pat` in `s` (JS `String.prototype.indexOf`,
with `none` for `-1`). -/
def findOcc (pat : Str) : Str → Option Nat
  | [] => if occursAtB pat [] 0 then some 0 else none
  | c :: t =>
    if occursAtB pat (c :: t) 0 then some 0
    else (findOcc pat t).map (· + 1)

lemma occursAtP_cons_succ (pat : Str) (c : Char) (t : Str) (i : Nat) :
    occursAtP pat (c :: t) (i + 1) ↔ occursAtP pat t i := by
  unfold occursAtP
  rfl

lemma findOcc_some (pat s : Str) (i : Nat) (h : findOcc pat s = some i) :
    occursAtP pat s i ∧ ∀ j, j < i → ¬ occursAtP pat s j := by
  induction s generalizing i with
  | nil =>
    unfold findOcc at h
    by_cases h0 : occursAtB pat [] 0
    · simp [h0] at h
      subst h
      refine ⟨by simpa [occursAtB] using h0, ?_⟩
      intro j hj; omega
    · simp [h0] at h
  | cons c t ih =>
    unfold findOcc at h
    by_cases h0 : occursAtB pat (c :: t) 0
    · simp [h0] at h
      subst h
      refine ⟨by simpa [occursAtB] using h0, ?_⟩
      intro j hj; omega
    · simp [h0] at h
      obtain ⟨k, hk, rfl⟩ := h
      obtain ⟨hocc, hmin⟩ := ih k hk
      refine ⟨(occursAtP_cons_succ pat c t k).mpr hocc, ?_⟩
      intro j hj
      match j with
      | 0 => simpa [occursAtB] using h0
      | j' + 1 =>
        rw [occursAtP_cons_succ]
        exact hmin j' (by omega)

lemma findOcc_none (pat s : Str) (h : findOcc pat s = none) :
    ∀ j, ¬ occursAtP pat s j := by
  induction s with
  | nil =>
    unfold findOcc at h
    by_cases h0 : occursAtB pat [] 0
    · simp [h0] at h
    · intro j
      match j with
      | 0 => simpa [occursAtB] using h0
      | j' + 1 =>
        intro hc
        unfold occursAtP at hc h0
        simp at hc
        simp [occursAtB, occursAtP] at h0
        simp [hc] at h0
  | cons c t ih =>
    unfold findOcc at h
    by_cases h0 : occursAtB pat (c :: t) 0
    · simp [h0] at h
    · simp [h0] at h
      intro j
      match j with
      | 0 => simpa [occursAtB] using h0
      | j' + 1 =>
        rw [occursAtP_cons_succ]
        exact ih h j'

lemma findOcc_eq_some_of (pat s : Str) (i : Nat)
    (hocc : occursAtP pat s i) (hmin : ∀ j, j < i → ¬ occursAtP pat s j) :
    findOcc pat s = some i := by
  match hfo : findOcc pat s with
  | none => exact absurd hocc (findOcc_none pat s hfo i)
  | some k =>
    obtain ⟨hk, hkmin⟩ := findOcc_some pat s k hfo
    have : k = i := by
      rcases Nat.lt_trichotomy k i with h | h | h
      · exact absurd hk (hmin k h)
      · exact h
      · exact absurd hocc (hkmin i h)
    rw [this]

lemma occursAtP_append (pat a b : Str) :
    occursAtP pat (a ++ (pat ++ b)) a.length := by
  unfold occursAtP
  rw [List.drop_left, List.take_left]

lemma occursAtP_length (pat s : Str) (i : Nat) (hp : pat ≠ [])
    (h : occursAtP pat s i) : i + pat.length ≤ s.length := by
  unfold occursAtP at h
  have h1 : ((s.drop i).take pat.length).length = pat.length := by rw [h]
  have h2 : 0 < pat.length := List.length_pos.mpr hp
  simp at h1
  omega

/-! ## Thinking Extractor (src/lib/thinking-parser.ts) -/

/-- The literal `<think>`. -/
def openTag : Str := "<think>".data

/-- The literal `</think>`. -/
def closeTag : Str := "</think>".data

/-- Result of `parseThinkingContent` (`ThinkingParseResult` in the source). -/
structure ThinkingParseResult where
  thinking : Str
  content : Str
  thinkingTime : Option Rat
deriving DecidableEq, Repr

/-- JS truthiness of the optional numeric `startTime` argument (`0` is falsy). -/
def optNatTruthy : Option Nat → Bool
  | none => false
  | some n => n ≠ 0

/-- `parseThinkingContent(fullContent, startTime)` from src/lib/thinking-parser.ts.

`Date.now()` is modelled by the explicit `now` argument.  The regex
`/<think>([\s\S]*?)<\/think>/` performs a leftmost, lazy match: the match
starts at the first occurrence of `<think>` and ends at the first occurrence
of `</think>` after it, which is how the complete-match branch is compiled
here.  `String.prototype.replace` with the same (non-global) regex removes
exactly that span. -/
def parseThinkingContent (fullContent : Str) (startTime : Option Nat)
    (now : Nat) : ThinkingParseResult :=
  match findOcc openTag fullContent with
  | some i =>
    match findOcc closeTag (fullContent.drop (i + 7)) with
    | some k =>
      -- complete <think>...</think> span: starts at i, closing tag at i+7+k
      let thinking := jsTrim ((fullContent.drop (i + 7)).take k)
      let content :=
        jsTrim (fullContent.take i ++ fullContent.drop (i + 7 + k + 8))
      let thinkingTime : Option Rat :=
        if optNatTruthy startTime ∧ content.length > 0 then
          some (((now : Rat) - (startTime.getD 0 : Nat)) / 1000)
        else if thinking.length > 0 then
          some (max (1/2 : Rat) ((thinking.length : Rat) / 150))
        else none
      ⟨thinking, content, thinkingTime⟩
    | none =>
      -- incomplete thinking: opening tag without closing tag
      let beforeThink := jsTrim (fullContent.take i)
      let afterThinkTag := fullContent.drop (i + 7)
      let thinkingTime : Option Rat :=
        if afterThinkTag.length > 0 then
          some (max (1/2 : Rat) ((afterThinkTag.length : Rat) / 150))
        else none
      ⟨afterThinkTag, beforeThink, thinkingTime⟩
  | none =>
    -- no thinking tags found
    ⟨[], fullContent, none⟩

lemma findOcc_eq_none_of (pat s : Str)
    (h : ∀ j, ¬ occursAtP pat s j) : findOcc pat s = none := by
  match hfo : findOcc pat s with
  | none => rfl
  | some k => exact absurd (findOcc_some pat s k hfo).1 (h k)

lemma occursAtP_drop (pat s : Str) (m k : Nat) :
    occursAtP pat (s.drop m) k ↔ occursAtP pat s (m + k) := by
  unfold occursAtP
  rw [List.drop_drop]

lemma take_len_append (a b : Str) : (a ++ b).take a.length = a :=
  List.take_left a b

lemma drop_len_append (a b : Str) : (a ++ b).drop a.length = b :=
  List.drop_left a b

/-- C5: `parseThinkingContent` splits its input as specified: a complete
`<think>X</think>` span (the leftmost one, closed by the first subsequent
`</think>`) gives `thinking = trim X` and `content` = the input with that span
removed, trimmed; an unclosed `<think>` gives `content` = trimmed text before
the tag and `thinking` = everything after the tag; no marker gives
`thinking = ""` and `content` = the input unchanged. -/
theorem parseThinkingContent_spec :
    (∀ (s pre inner post : Str) (st : Option Nat) (now : Nat),
      s = pre ++ openTag ++ inner ++ closeTag ++ post →
      (∀ j, j < pre.length → ¬ occursAtP openTag s j) →
      (∀ k, k < inner.length → ¬ occursAtP closeTag s (pre.length + 7 + k)) →
      (parseThinkingContent s st now).thinking = jsTrim inner ∧
      (parseThinkingContent s st now).content = jsTrim (pre ++ post)) ∧
    (∀ (s pre rest : Str) (st : Option Nat) (now : Nat),
      s = pre ++ openTag ++ rest →
      (∀ j, j < pre.length → ¬ occursAtP openTag s j) →
      (∀ k, k < s.length → ¬ occursAtP closeTag s (pre.length + 7 + k)) →
      (parseThinkingContent s st now).thinking = rest ∧
      (parseThinkingContent s st now).content = jsTrim pre) ∧
    (∀ (s : Str) (st : Option Nat) (now : Nat),
      (∀ j, j < s.length → ¬ occursAtP openTag s j) →
      (parseThinkingContent s st now).thinking = [] ∧
      (parseThinkingContent s st now).content = s) := by
  have hol : openTag.length = 7 := rfl
  have hcl : closeTag.length = 8 := rfl
  refine ⟨?_, ?_, ?_⟩
  · intro s pre inner post st now h1 h2 h3
    have h1' : s = pre ++ (openTag ++ (inner ++ (closeTag ++ post))) := by
      rw [h1]; simp [List.append_assoc]
    have hOcc : occursAtP openTag s pre.length := by
      rw [h1']; exact occursAtP_append openTag pre _
    have hfo : findOcc openTag s = some pre.length :=
      findOcc_eq_some_of _ _ _ hOcc h2
    have hdrop : s.drop (pre.length + 7) = inner ++ (closeTag ++ post) := by
      rw [h1', show pre ++ (openTag ++ (inner ++ (closeTag ++ post)))
            = (pre ++ openTag) ++ (inner ++ (closeTag ++ post)) by
            simp [List.append_assoc],
          show pre.length + 7 = (pre ++ openTag).length by
            simp [hol]]
      exact drop_len_append _ _
    have hOccC : occursAtP closeTag (s.drop (pre.length + 7)) inner.length := by
      rw [hdrop]; exact occursAtP_append closeTag inner post
    have hminC : ∀ k, k < inner.length →
        ¬ occursAtP closeTag (s.drop (pre.length + 7)) k := by
      intro k hk
      rw [occursAtP_drop]
      exact h3 k hk
    have hfc : findOcc closeTag (s.drop (pre.length + 7)) = some inner.length :=
      findOcc_eq_some_of _ _ _ hOccC hminC
    have htake : (s.drop (pre.length + 7)).take inner.length = inner := by
      rw [hdrop]
      exact take_len_append _ _
    have htakePre : s.take pre.length = pre := by
      rw [h1']; exact take_len_append pre _
    have hdropEnd : s.drop (pre.length + 7 + inner.length + 8) = post := by
      rw [h1', show pre ++ (openTag ++ (inner ++ (closeTag ++ post)))
            = (((pre ++ openTag) ++ inner) ++ closeTag) ++ post by
            simp [List.append_assoc],
          show pre.length + 7 + inner.length + 8
            = ((((pre ++ openTag) ++ inner) ++ closeTag)).length by
            simp [hol, hcl]; omega]
      exact drop_len_append _ _
    unfold parseThinkingContent
    rw [hfo]
    refine ⟨?_, ?_⟩ <;> simp only [hfc, htake, htakePre, hdropEnd]
  · intro s pre rest st now h1 h2 h3
    have h1' : s = pre ++ (openTag ++ rest) := by
      rw [h1]; simp [List.append_assoc]
    have hOcc : occursAtP openTag s pre.length := by
      rw [h1']; exact occursAtP_append openTag pre _
    have hfo : findOcc openTag s = some pre.length :=
      findOcc_eq_some_of _ _ _ hOcc h2
    have h3' : ∀ k, ¬ occursAtP closeTag s (pre.length + 7 + k) := by
      intro k
      by_cases hk : k < s.length
      · exact h3 k hk
      · intro hc
        have := occursAtP_length closeTag s _ (by decide) hc
        omega
    have hfc : findOcc closeTag (s.drop (pre.length + 7)) = none := by
      apply findOcc_eq_none_of
      intro j
      rw [occursAtP_drop]
      exact h3' j
    have hdrop : s.drop (pre.length + 7) = rest := by
      rw [h1', show pre ++ (openTag ++ rest) = (pre ++ openTag) ++ rest by
            simp [List.append_assoc],
          show pre.length + 7 = (pre ++ openTag).length by simp [hol]]
      exact drop_len_append _ _
    have htakePre : s.take pre.length = pre := by
      rw [h1']; exact take_len_append pre _
    have hfc' : findOcc closeTag rest = none := by rw [← hdrop]; exact hfc
    unfold parseThinkingContent
    rw [hfo]
    refine ⟨?_, ?_⟩ <;> simp only [hdrop, hfc', htakePre]
  · intro s st now h
    have h' : ∀ j, ¬ occursAtP openTag s j := by
      intro j
      by_cases hj : j < s.length
      · exact h j hj
      · intro hc
        have := occursAtP_length openTag s _ (by decide) hc
        omega
    have hfo : findOcc openTag s = none := findOcc_eq_none_of _ _ h'
    unfold parseThinkingContent
    rw [hfo]
    exact ⟨rfl, rfl⟩

/-- Witness: the three cases of `parseThinkingContent_spec` at concrete
inputs. -/
theorem parseThinkingContent_spec_witness :
    (parseThinkingContent "a<think> b </think>c".data (some 5) 9).thinking
        = "b".data ∧
    (parseThinkingContent "a<think> b </think>c".data (some 5) 9).content
        = "ac".data ∧
    (parseThinkingContent "pre<think>xy".data none 0).thinking = "xy".data ∧
    (parseThinkingContent "pre<think>xy".data none 0).content = "pre".data ∧
    (parseThinkingContent "no tags".data none 0).thinking = [] ∧
    (parseThinkingContent "no tags".data none 0).content = "no tags".data := by
  obtain ⟨hA, hB, hC⟩ := parseThinkingContent_spec
  have a := hA "a<think> b </think>c".data "a".data " b ".data "c".data
    (some 5) 9 (by decide) (by decide) (by decide)
  have b := hB "pre<think>xy".data "pre".data "xy".data none 0
    (by decide) (by decide) (by decide)
  have c := hC "no tags".data none 0 (by decide)
  exact ⟨a.1.trans (by decide), a.2.trans (by decide),
    b.1, b.2.trans (by decide), c.1, c.2⟩

/-- C8 counterexample: `parseThinkingContent` is not deterministic in its
arguments alone — with a complete think block followed by content and a
truthy `startTime`, `thinkingTime` is computed from `Date.now()`, so two
calls on the same `(fullContent, startTime)` made at different times return
different results. -/
theorem parseThinkingContent_clock_dependent :
    parseThinkingContent "<think>hi</think>ok".data (some 5) 1005
      ≠ parseThinkingContent "<think>hi</think>ok".data (some 5) 2005 := by
  intro h
  have h1 : (parseThinkingContent "<think>hi</think>ok".data
      (some 5) 1005).thinkingTime
      = some (((1005 : Rat) - ((5 : Nat) : Rat)) / 1000) := rfl
  have h2 : (parseThinkingContent "<think>hi</think>ok".data
      (some 5) 2005).thinkingTime
      = some (((2005 : Rat) - ((5 : Nat) : Rat)) / 1000) := rfl
  rw [h, h2] at h1
  have h3 := Option.some.inj h1
  norm_num at h3

/-- C8 (amended): the `thinking` and `content` fields of
`parseThinkingContent` depend only on `fullContent` — not on `startTime` nor
on the wall clock; only `thinkingTime` may differ between calls.
Consequently, calling it on a monotonically growing buffer and taking the
last result is literally the single call on the final full buffer. -/
lemma parseThinkingContent_view_pure (f : Str) (st1 st2 : Option Nat)
    (n1 n2 : Nat) :
    (parseThinkingContent f st1 n1).thinking
      = (parseThinkingContent f st2 n2).thinking ∧
    (parseThinkingContent f st1 n1).content
      = (parseThinkingContent f st2 n2).content := by
  refine ⟨?_, ?_⟩ <;>
    (unfold parseThinkingContent
     split <;> (try split) <;> rfl)

theorem parseThinkingContent_fields_pure :
    (∀ (f : Str) (st1 st2 : Option Nat) (n1 n2 : Nat),
      (parseThinkingContent f st1 n1).thinking
        = (parseThinkingContent f st2 n2).thinking ∧
      (parseThinkingContent f st1 n1).content
        = (parseThinkingContent f st2 n2).content) ∧
    (∀ (bufs : List Str) (f : Str) (st : Option Nat) (now : Nat),
      ((bufs ++ [f]).map (fun b => parseThinkingContent b st now)).getLast?
        = some (parseThinkingContent f st now)) := by
  constructor
  · exact parseThinkingContent_view_pure
  · intro bufs f st now
    rw [List.map_append]
    simp [List.getLast?_concat]

/-! ## Model identity and hashes (src/unnamed/part_003: session-manager.ts) -/

/-- Model identity per `ChatModel`: `id`, `name`, `provider` and the
`function_calling` capability flag (further passthrough fields of the source
type play no role in any modelled operation). -/
structure ChatModel where
  id : Str
  name : Str
  provider : Str
  function_calling : Bool
deriving DecidableEq, Repr

/-- `ModelHashGenerator.generateSingleModelHash(model)`. -/
def generateSingleModelHash : Option ChatModel → Str
  | none => "null".data
  | some m =>
    "single_".data ++ m.id ++ "_".data ++ m.name ++ "_".data ++ m.provider

/-- One side of the comparison hash:
`${model.id}_${model.name}_${model.provider}` or `'null'`. -/
def sideHash : Option ChatModel → Str
  | none => "null".data
  | some m => m.id ++ "_".data ++ m.name ++ "_".data ++ m.provider

/-- `ModelHashGenerator.generateComparisonModelHash(leftModel, rightModel)`. -/
def generateComparisonModelHash (l r : Option ChatModel) : Str :=
  "comparison_".data ++ sideHash l ++ "_vs_".data ++ sideHash r

/-- `ModelHashGenerator.compareHashes(hash1, hash2)`. -/
def compareHashes (h1 h2 : Str) : Bool :=
  decide (h1 = h2)

/-- The two models agree on the three fields the hashes read. -/
def tripleEq (a b : ChatModel) : Prop :=
  a.id = b.id ∧ a.name = b.name ∧ a.provider = b.provider

instance (a b : ChatModel) : Decidable (tripleEq a b) := by
  unfold tripleEq; infer_instance

/-- The hashed fields contain no `'_'` (the hash separator). -/
def usFree (a : ChatModel) : Prop :=
  '_' ∉ a.id ∧ '_' ∉ a.name ∧ '_' ∉ a.provider

instance (a : ChatModel) : Decidable (usFree a) := by
  unfold usFree; infer_instance

/-- Join a list of strings with `'_'` separators. -/
def joinU : List Str → Str
  | [] => []
  | [x] => x
  | x :: xs => x ++ '_' :: joinU xs

lemma sepFree_append_inj (x : Str) : ∀ (y a b : Str), '_' ∉ x → '_' ∉ y →
    x ++ '_' :: a = y ++ '_' :: b → x = y ∧ a = b := by
  induction x with
  | nil =>
    intro y a b _ hy h
    cases y with
    | nil => simpa using h
    | cons d y' =>
      simp at h
      obtain ⟨h1, -⟩ := h
      exact absurd (by rw [← h1]; exact List.mem_cons_self _ _) hy
  | cons c x' ih =>
    intro y a b hx hy h
    cases y with
    | nil =>
      simp at h
      obtain ⟨h1, -⟩ := h
      exact absurd (by rw [h1]; exact List.mem_cons_self _ _) hx
    | cons d y' =>
      simp at h
      obtain ⟨h1, h2⟩ := h
      have hx' : '_' ∉ x' := fun hm => hx (List.mem_cons_of_mem _ hm)
      have hy' : '_' ∉ y' := fun hm => hy (List.mem_cons_of_mem _ hm)
      obtain ⟨he, ha⟩ := ih y' a b hx' hy' h2
      exact ⟨by rw [h1, he], ha⟩

lemma joinU_inj (xs : List Str) : ∀ (ys : List Str), xs.length = ys.length →
    (∀ t ∈ xs, '_' ∉ t) → (∀ t ∈ ys, '_' ∉ t) →
    joinU xs = joinU ys → xs = ys := by
  induction xs with
  | nil =>
    intro ys hlen _ _ _
    cases ys with
    | nil => rfl
    | cons yh yt => simp at hlen
  | cons x xs ih =>
    intro ys hlen hx hy h
    cases ys with
    | nil => simp at hlen
    | cons y ys' =>
      cases xs with
      | nil =>
        cases ys' with
        | nil =>
          simp only [joinU] at h
          rw [h]
        | cons yh yt => simp at hlen
      | cons x2 xs2 =>
        cases ys' with
        | nil => simp at hlen
        | cons y2 ys2 =>
          have h' : x ++ '_' :: joinU (x2 :: xs2)
              = y ++ '_' :: joinU (y2 :: ys2) := h
          obtain ⟨hxy, hrest⟩ := sepFree_append_inj x y _ _
            (hx x (by simp)) (hy y (by simp)) h'
          have htl : x2 :: xs2 = y2 :: ys2 := by
            refine ih (y2 :: ys2) (by simpa using hlen) ?_ ?_ hrest
            · intro t ht; exact hx t (List.mem_cons_of_mem _ ht)
            · intro t ht; exact hy t (List.mem_cons_of_mem _ ht)
          rw [hxy, htl]

lemma generateComparisonModelHash_eq_joinU (a b : ChatModel) :
    generateComparisonModelHash (some a) (some b)
      = joinU ["comparison".data, a.id, a.name, a.provider, "vs".data,
               b.id, b.name, b.provider] := by
  simp only [generateComparisonModelHash, sideHash, joinU,
    show ("comparison_".data : Str) = "comparison".data ++ ['_'] from rfl,
    show ("_vs_".data : Str) = ['_'] ++ "vs".data ++ ['_'] from rfl,
    show ("_".data : Str) = ['_'] from rfl,
    List.append_assoc, List.singleton_append, List.cons_append,
    List.nil_append]

/-- Build a `ChatModel` from string literals. -/
def mkModel (i n p : String) : ChatModel :=
  ⟨i.data, n.data, p.data, false⟩

/-- C7 counterexample: the comparison hash is an unescaped `'_'`-join, so a
swapped pair of distinct models can collide.  With `A = (u, u, u)` and
`B = (u, u_u_vs_u, u_u)` both orders hash to
`comparison_u_u_u_vs_u_u_u_vs_u_u_u`, refuting `hash(A,B) ≠ hash(B,A)` for
all pairs differing in id/name/provider. -/
theorem generateComparisonModelHash_swap_collision :
    generateComparisonModelHash (some (mkModel "u" "u" "u"))
        (some (mkModel "u" "u_u_vs_u" "u_u"))
      = generateComparisonModelHash (some (mkModel "u" "u_u_vs_u" "u_u"))
        (some (mkModel "u" "u" "u"))
    ∧ ¬ tripleEq (mkModel "u" "u" "u") (mkModel "u" "u_u_vs_u" "u_u") := by
  decide

/-- C7 (amended): the comparison hash depends only on the two models'
id, name and provider fields; and swapping the sides changes the hash for
every pair of models that differ in one of those fields, **provided** none of
the six hashed fields contains the separator character `'_'` (without that
proviso unescaped joins can collide, see the counterexample). -/
theorem generateComparisonModelHash_spec :
    (∀ A A' B B' : ChatModel, tripleEq A A' → tripleEq B B' →
      generateComparisonModelHash (some A) (some B)
        = generateComparisonModelHash (some A') (some B')) ∧
    (∀ A B : ChatModel, usFree A → usFree B → ¬ tripleEq A B →
      generateComparisonModelHash (some A) (some B)
        ≠ generateComparisonModelHash (some B) (some A)) := by
  constructor
  · intro A A' B B' hA hB
    obtain ⟨ha1, ha2, ha3⟩ := hA
    obtain ⟨hb1, hb2, hb3⟩ := hB
    simp [generateComparisonModelHash, sideHash, ha1, ha2, ha3, hb1, hb2, hb3]
  · intro A B hA hB hne h
    obtain ⟨ha1, ha2, ha3⟩ := hA
    obtain ⟨hb1, hb2, hb3⟩ := hB
    rw [generateComparisonModelHash_eq_joinU,
      generateComparisonModelHash_eq_joinU] at h
    have := joinU_inj _ _ (by simp) ?_ ?_ h
    · injection this with e1 this; injection this with e2 this
      injection this with e3 this; injection this with e4 this
      exact hne ⟨e2, e3, e4⟩
    · intro t ht
      simp only [List.mem_cons, List.not_mem_nil, or_false] at ht
      rcases ht with rfl | rfl | rfl | rfl | rfl | rfl | rfl | rfl
      · decide
      · exact ha1
      · exact ha2
      · exact ha3
      · decide
      · exact hb1
      · exact hb2
      · exact hb3
    · intro t ht
      simp only [List.mem_cons, List.not_mem_nil, or_false] at ht
      rcases ht with rfl | rfl | rfl | rfl | rfl | rfl | rfl | rfl
      · decide
      · exact hb1
      · exact hb2
      · exact hb3
      · decide
      · exact ha1
      · exact ha2
      · exact ha3

/-- Witness: `generateComparisonModelHash_spec` applied at concrete
underscore-free models. -/
theorem generateComparisonModelHash_spec_witness :
    generateComparisonModelHash (some (mkModel "m1" "n1" "p1"))
        (some (mkModel "m2" "n2" "p2"))
      ≠ generateComparisonModelHash (some (mkModel "m2" "n2" "p2"))
        (some (mkModel "m1" "n1" "p1")) :=
  generateComparisonModelHash_spec.2 (mkModel "m1" "n1" "p1")
    (mkModel "m2" "n2" "p2") (by decide) (by decide) (by decide)

/-! ## SessionIdGenerator (src/unnamed/part_003: session-manager.ts) -/

/-- Decimal digit to its character. -/
def digChar : Nat → Char
  | 0 => '0' | 1 => '1' | 2 => '2' | 3 => '3' | 4 => '4'
  | 5 => '5' | 6 => '6' | 7 => '7' | 8 => '8' | _ => '9'

/-- Character to digit value. -/
def digVal (c : Char) : Nat := c.toNat - 48

/-- Fuel-driven most-significant-first decimal digits of `n`. -/
def natDigsAux : Nat → Nat → Str
  | 0, _ => []
  | fuel + 1, n =>
    if n = 0 then [] else natDigsAux fuel (n / 10) ++ [digChar (n % 10)]

/-- Decimal representation of a natural number, as produced by JS
template-literal interpolation of a non-negative integer. -/
def natStr (n : Nat) : Str :=
  if n = 0 then ['0'] else natDigsAux (n + 1) n

/-- Accumulate the numeric value of a digit string. -/
def digsVal (s : Str) : Nat :=
  s.foldl (fun a c => 10 * a + digVal c) 0

lemma digVal_digChar (d : Nat) (h : d < 10) : digVal (digChar d) = d := by
  interval_cases d <;> rfl

lemma digChar_isDigit (d : Nat) (h : d < 10) : (digChar d).isDigit = true := by
  interval_cases d <;> rfl

lemma natDigsAux_foldl (fuel : Nat) : ∀ n, n ≤ fuel →
    List.foldl (fun a c => 10 * a + digVal c) 0 (natDigsAux fuel n) = n := by
  induction fuel with
  | zero => intro n h; interval_cases n; rfl
  | succ fuel ih =>
    intro n h
    unfold natDigsAux
    by_cases h0 : n = 0
    · simp [h0]
    · simp only [h0, if_false]
      rw [List.foldl_append]
      have hdiv : n / 10 ≤ fuel := by
        have := Nat.div_le_self n 10
        have := Nat.div_lt_self (Nat.pos_of_ne_zero h0) (by norm_num : 1 < 10)
        omega
      rw [ih (n / 10) hdiv]
      simp [digVal_digChar (n % 10) (Nat.mod_lt n (by norm_num))]
      omega

lemma natDigsAux_all_digits (fuel : Nat) : ∀ n, ∀ c ∈ natDigsAux fuel n,
    c.isDigit = true := by
  induction fuel with
  | zero => intro n c hc; simp [natDigsAux] at hc
  | succ fuel ih =>
    intro n c hc
    unfold natDigsAux at hc
    by_cases h0 : n = 0
    · simp [h0] at hc
    · simp only [h0, if_false, List.mem_append, List.mem_singleton] at hc
      rcases hc with hc | rfl
      · exact ih _ c hc
      · exact digChar_isDigit _ (Nat.mod_lt n (by norm_num))

lemma natStr_all_digits (n : Nat) : ∀ c ∈ natStr n, c.isDigit = true := by
  unfold natStr
  by_cases h0 : n = 0
  · simp [h0]
  · simp only [h0, if_false]
    exact natDigsAux_all_digits (n + 1) n

lemma natStr_ne_nil (n : Nat) : natStr n ≠ [] := by
  unfold natStr
  by_cases h0 : n = 0
  · simp [h0]
  · simp only [h0, if_false]
    unfold natDigsAux
    simp [h0]

lemma digsVal_natStr (n : Nat) : digsVal (natStr n) = n := by
  unfold natStr digsVal
  by_cases h0 : n = 0
  · simp [h0]; rfl
  · simp only [h0, if_false]
    exact natDigsAux_foldl (n + 1) n (by omega)

lemma isDigit_ne_underscore (c : Char) (h : c.isDigit = true) : c ≠ '_' := by
  intro h'
  rw [h'] at h
  exact absurd h (by decide)

lemma natStr_no_underscore (n : Nat) : '_' ∉ natStr n := by
  intro hm
  exact absurd rfl (isDigit_ne_underscore '_' (natStr_all_digits n '_' hm))

/-- `String.prototype.split('_')`. -/
def splitU : Str → List Str
  | [] => [[]]
  | c :: t =>
    match splitU t with
    | [] => [[]]
    | h :: r => if c = '_' then [] :: h :: r else (c :: h) :: r

lemma splitU_ne_nil (s : Str) : splitU s ≠ [] := by
  cases s with
  | nil => simp [splitU]
  | cons c t =>
    unfold splitU
    match splitU t with
    | [] => simp
    | h :: r =>
      by_cases hc : c = '_' <;> simp [hc]

lemma splitU_sepFree (x : Str) (hx : '_' ∉ x) : splitU x = [x] := by
  induction x with
  | nil => rfl
  | cons c t ih =>
    have hc : c ≠ '_' := fun h => hx (h ▸ List.mem_cons_self _ _)
    have ht : '_' ∉ t := fun h => hx (List.mem_cons_of_mem _ h)
    unfold splitU
    rw [ih ht]
    simp [hc]

lemma splitU_append (x rest : Str) (hx : '_' ∉ x) :
    splitU (x ++ '_' :: rest) = x :: splitU rest := by
  induction x with
  | nil =>
    obtain ⟨h2, r, hr⟩ : ∃ h2 r, splitU rest = h2 :: r := by
      cases hsp : splitU rest with
      | nil => exact absurd hsp (splitU_ne_nil rest)
      | cons a b => exact ⟨a, b, rfl⟩
    simp [splitU, hr]
  | cons c t ih =>
    have hc : c ≠ '_' := fun h => hx (h ▸ List.mem_cons_self _ _)
    have ht : '_' ∉ t := fun h => hx (List.mem_cons_of_mem _ h)
    simp only [List.cons_append]
    simp [splitU, ih ht, hc]

/-- `parseInt` as used on a session-id token: take the leading run of decimal
digits; `NaN` (no digits) becomes `none`.  The call site only ever receives
all-digit tokens, having validated the id first. -/
def parseIntJS (s : Str) : Option Nat :=
  let ds := s.takeWhile Char.isDigit
  if ds = [] then none else some (digsVal ds)

lemma takeWhile_all_eq (p : Char → Bool) (s : Str)
    (h : ∀ c ∈ s, p c = true) : s.takeWhile p = s := by
  induction s with
  | nil => rfl
  | cons c t ih =>
    rw [List.takeWhile_cons, h c (List.mem_cons_self _ _)]
    simp [ih fun d hd => h d (List.mem_cons_of_mem _ hd)]

lemma parseIntJS_natStr (n : Nat) : parseIntJS (natStr n) = some n := by
  unfold parseIntJS
  rw [takeWhile_all_eq _ _ (natStr_all_digits n)]
  simp [natStr_ne_nil n, digsVal_natStr n]

/-- Session id kind (`'single' | 'comparison'`). -/
inductive SessionType
  | single
  | comparison
deriving DecidableEq, Repr

/-- Result of `SessionIdGenerator.generateSessionId` (`SessionId` type). -/
structure SessionIdR where
  id : Str
  timestamp : Nat
  type : SessionType
deriving DecidableEq, Repr

/-- `SessionIdGenerator.generateSessionId(type)`.  The generator's private
`counter` is the explicit state; `new Date()` is the `now` argument.  Returns
the `SessionId` record and the incremented counter. -/
def generateSessionId (ty : SessionType) (now counter : Nat) :
    SessionIdR × Nat :=
  let c := counter + 1
  ({ id := "session_".data ++ natStr now ++ "_".data ++ natStr c,
     timestamp := now, type := ty }, c)

/-- `SessionIdGenerator.validateSessionId(sessionId)`:
`/^session_\d+_\d+$/.test(sessionId)`, expressed via the `'_'`-split (the
digit runs cannot contain `'_'`, so the regex matches exactly the strings
whose split is `["session", digits, digits]` with both runs non-empty). -/
def validateSessionId (s : Str) : Bool :=
  match splitU s with
  | [a, b, c] =>
    decide (a = "session".data) && decide (b ≠ []) && b.all Char.isDigit
      && decide (c ≠ []) && c.all Char.isDigit
  | _ => false

/-- `SessionIdGenerator.extractTimestamp(sessionId)`: validate, split on
`'_'`, `parseInt` the second part (the `Date` result carries that numeric
timestamp). -/
def extractTimestamp (s : Str) : Option Nat :=
  if validateSessionId s then
    match splitU s with
    | _ :: b :: _ => parseIntJS b
    | _ => none
  else none

lemma splitU_generated (t c : Nat) :
    splitU ("session_".data ++ natStr t ++ "_".data ++ natStr c)
      = ["session".data, natStr t, natStr c] := by
  have h1 : "session_".data ++ natStr t ++ "_".data ++ natStr c
      = "session".data ++ '_' :: (natStr t ++ '_' :: natStr c) := by
    simp only [show ("session_".data : Str) = "session".data ++ ['_'] from rfl,
      show ("_".data : Str) = ['_'] from rfl, List.append_assoc,
      List.singleton_append, List.cons_append, List.nil_append]
  rw [h1, splitU_append _ _ (by decide),
    splitU_append _ _ (natStr_no_underscore t),
    splitU_sepFree _ (natStr_no_underscore c)]

/-- C10: every generated session id passes `validateSessionId`;
`extractTimestamp` recovers exactly the embedded creation timestamp; and two
successive calls return distinct ids, the private counter strictly
increasing on each call. -/
theorem generateSessionId_spec (ty1 ty2 : SessionType) (t1 t2 c0 : Nat) :
    validateSessionId (generateSessionId ty1 t1 c0).1.id = true ∧
    extractTimestamp (generateSessionId ty1 t1 c0).1.id = some t1 ∧
    (generateSessionId ty1 t1 c0).1.id
      ≠ (generateSessionId ty2 t2 (generateSessionId ty1 t1 c0).2).1.id ∧
    c0 < (generateSessionId ty1 t1 c0).2 ∧
    (generateSessionId ty1 t1 c0).2
      < (generateSessionId ty2 t2 (generateSessionId ty1 t1 c0).2).2 ∧
    (∀ (ta tb ca cb : Nat), ca ≠ cb →
      (generateSessionId ty1 ta ca).1.id ≠ (generateSessionId ty2 tb cb).1.id) := by
  have hval : ∀ t c, validateSessionId
      ("session_".data ++ natStr t ++ "_".data ++ natStr c) = true := by
    intro t c
    unfold validateSessionId
    rw [splitU_generated]
    simp [natStr_ne_nil, List.all_eq_true.mpr (natStr_all_digits t),
      List.all_eq_true.mpr (natStr_all_digits c)]
  have hinj : ∀ (ta tb ca cb : Nat), ca ≠ cb →
      ("session_".data ++ natStr ta ++ "_".data ++ natStr ca : Str)
        ≠ "session_".data ++ natStr tb ++ "_".data ++ natStr cb := by
    intro ta tb ca cb hne h
    have h' := congrArg splitU h
    rw [splitU_generated, splitU_generated] at h'
    have h3 : natStr ca = natStr cb := by
      injection h' with e1 h'
      injection h' with e2 h'
      injection h' with e3 h'
    have h4 := congrArg digsVal h3
    rw [digsVal_natStr, digsVal_natStr] at h4
    exact hne h4
  refine ⟨hval t1 (c0 + 1), ?_, hinj t1 t2 (c0 + 1) (c0 + 2) (by omega),
    by simp [generateSessionId], by simp [generateSessionId], ?_⟩
  · unfold extractTimestamp
    rw [show (generateSessionId ty1 t1 c0).1.id
        = "session_".data ++ natStr t1 ++ "_".data ++ natStr (c0 + 1) from rfl,
      hval t1 (c0 + 1), splitU_generated]
    simp [parseIntJS_natStr]
  · intro ta tb ca cb hne
    exact hinj ta tb (ca + 1) (cb + 1) (by omega)

/-! ## SessionTracker and SessionStateManager
(src/unnamed/part_003 and src/lib/chat-persistence.ts second half) -/

/-- `SessionConfig` (src/types/session.ts). -/
structure SessionConfig where
  autoReset : Bool
  resetOnModelChange : Bool
  resetOnRefresh : Bool
  maxInactivityTime : Nat
deriving DecidableEq, Repr

/-- `DEFAULT_SESSION_CONFIG`. -/
def DEFAULT_SESSION_CONFIG : SessionConfig :=
  { autoReset := true, resetOnModelChange := true, resetOnRefresh := false,
    maxInactivityTime := 30 * 60 * 1000 }

/-- `SessionState` (src/types/session.ts); `Date`s are epoch milliseconds. -/
structure SessionState where
  id : Str
  isActive : Bool
  lastActivity : Nat
  modelHash : Str
  conversationId : Option Str
deriving DecidableEq, Repr

/-- Session lifecycle events emitted by the tracker (handlers are external;
the model records emissions in order). -/
inductive SessionEvt
  | created (sessionId : Str)
  | reset (sessionId : Str) (reason : Str)
  | modelChanged (sessionId : Str) (oldHash newHash : Str)
deriving DecidableEq, Repr

/-- `SessionTracker` state: the `activeSessions` map (keyed by session id,
association list in insertion order) plus the emitted-event log. -/
structure TrackerState where
  sessions : List (Str × SessionState)
  events : List SessionEvt
deriving DecidableEq, Repr

/-- `Map.prototype.get`. -/
def lookupSession (tr : TrackerState) (sid : Str) : Option SessionState :=
  (tr.sessions.find? (fun p => decide (p.1 = sid))).map Prod.snd

/-- `Map.prototype.set`: replace in place if the key exists, append
otherwise. -/
def mapSet {A : Type} (m : List (Str × A)) (k : Str) (v : A) :
    List (Str × A) :=
  if m.any (fun p => decide (p.1 = k)) then
    m.map (fun p => if p.1 = k then (k, v) else p)
  else m ++ [(k, v)]

/-- `Map.prototype.get`, generically. -/
def lookupKey {A : Type} (m : List (Str × A)) (k : Str) : Option A :=
  (m.find? (fun p => decide (p.1 = k))).map Prod.snd

/-- `SessionTracker.createSession(sessionId, modelHash, conversationId)`. -/
def createSession (tr : TrackerState) (sid : Str) (modelHash : Str)
    (conversationId : Option Str) (now : Nat) : SessionState × TrackerState :=
  let s : SessionState :=
    { id := sid, isActive := true, lastActivity := now,
      modelHash := modelHash, conversationId := conversationId }
  (s, { sessions := mapSet tr.sessions sid s,
        events := tr.events ++ [SessionEvt.created sid] })

/-- `SessionTracker.updateActivity(sessionId)` (no-op when absent). -/
def updateActivity (tr : TrackerState) (sid : Str) (now : Nat) :
    TrackerState :=
  match lookupSession tr sid with
  | some s =>
    { tr with sessions := mapSet tr.sessions sid { s with lastActivity := now } }
  | none => tr

/-- `SessionTracker.updateModelHash(sessionId, newModelHash, oldModelHash)`. -/
def updateModelHash (tr : TrackerState) (sid : Str)
    (newHash oldHash : Str) (now : Nat) : TrackerState :=
  match lookupSession tr sid with
  | some s =>
    { sessions := mapSet tr.sessions sid
        { s with modelHash := newHash, lastActivity := now },
      events := tr.events ++ [SessionEvt.modelChanged sid oldHash newHash] }
  | none => tr

/-- `SessionTracker.resetSession(sessionId, reason)`: keep the id and hash,
clear `conversationId`, bump activity, emit `session_reset`. -/
def resetSession (tr : TrackerState) (sid : Str) (reason : Str) (now : Nat) :
    TrackerState :=
  match lookupSession tr sid with
  | some s =>
    { sessions := mapSet tr.sessions sid
        { s with lastActivity := now, conversationId := none },
      events := tr.events ++ [SessionEvt.reset sid reason] }
  | none => tr

/-- `SessionStateManager` state: its `config`, the singleton tracker, and the
id generator's counter. -/
structure MgrState where
  config : SessionConfig
  tracker : TrackerState
  counter : Nat
deriving DecidableEq, Repr

/-- A fresh manager (default config, empty tracker, zero counter). -/
def mgr0 : MgrState :=
  { config := DEFAULT_SESSION_CONFIG,
    tracker := { sessions := [], events := [] }, counter := 0 }

/-- `SessionStateManager.createSingleSession(model, conversationId)`. -/
def createSingleSession (st : MgrState) (model : Option ChatModel)
    (conversationId : Option Str) (now : Nat) : SessionState × MgrState :=
  let g := generateSessionId SessionType.single now st.counter
  let modelHash := generateSingleModelHash model
  let r := createSession st.tracker g.1.id modelHash conversationId now
  (r.1, { st with counter := g.2, tracker := r.2 })

/-- `SessionStateManager.shouldResetOnSingleModelChange(currentSessionId,
newModel)`. -/
def shouldResetOnSingleModelChange (st : MgrState) (sid : Str)
    (newModel : Option ChatModel) : Bool :=
  if st.config.resetOnModelChange then
    match lookupSession st.tracker sid with
    | some session =>
      !(compareHashes session.modelHash (generateSingleModelHash newModel))
    | none => false
  else false

/-- `SessionStateManager.handleSingleModelChange(currentSessionId, newModel,
onReset)`.  The `onReset` callback is an external effect invoked in the
`autoReset` branch; the returned `{shouldReset, sessionId}` pair and the
updated state are modelled. -/
def handleSingleModelChange (st : MgrState) (sid : Str)
    (newModel : Option ChatModel) (now : Nat) : (Bool × Str) × MgrState :=
  if shouldResetOnSingleModelChange st sid newModel then
    if st.config.autoReset then
      let tr1 := resetSession st.tracker sid "model_change".data now
      let newHash := generateSingleModelHash newModel
      let tr2 :=
        match lookupSession tr1 sid with
        | some session => updateModelHash tr1 sid newHash session.modelHash now
        | none => tr1
      ((true, sid), { st with tracker := tr2 })
    else
      let r := createSingleSession st newModel none now
      ((true, r.1.id), r.2)
  else
    ((false, sid), { st with tracker := updateActivity st.tracker sid now })

lemma find_replace_self {A : Type} (m : List (Str × A)) (k : Str)
    (v : A) (hin : m.any (fun p => decide (p.1 = k)) = true) :
    (m.map (fun p => if p.1 = k then (k, v) else p)).find?
      (fun p => decide (p.1 = k)) = some (k, v) := by
  induction m with
  | nil => simp at hin
  | cons p t ih =>
    by_cases hp : p.1 = k
    · simp [List.find?, hp]
    · simp only [List.any_cons, Bool.or_eq_true, decide_eq_true_eq] at hin
      rcases hin with hin | hin
      · exact absurd hin hp
      · simp only [List.map_cons, hp, if_false]
        have hstep : List.find? (fun q => decide (q.1 = k))
            (p :: t.map (fun q => if q.1 = k then (k, v) else q))
            = List.find? (fun q => decide (q.1 = k))
              (t.map (fun q => if q.1 = k then (k, v) else q)) := by
          simp [List.find?, hp]
        rw [hstep]
        exact ih hin

lemma find_append_self {A : Type} (m : List (Str × A)) (k : Str)
    (v : A) (hnin : ¬ m.any (fun p => decide (p.1 = k)) = true) :
    (m ++ [(k, v)]).find? (fun p => decide (p.1 = k)) = some (k, v) := by
  induction m with
  | nil => simp [List.find?]
  | cons p t ih =>
    simp only [List.any_cons, Bool.or_eq_true, decide_eq_true_eq,
      not_or] at hnin
    rw [List.cons_append]
    have hstep : List.find? (fun q => decide (q.1 = k)) (p :: (t ++ [(k, v)]))
        = List.find? (fun q => decide (q.1 = k)) (t ++ [(k, v)]) := by
      simp [List.find?, hnin.1]
    rw [hstep]
    exact ih hnin.2

lemma find_mapSet_self {A : Type} (m : List (Str × A)) (k : Str)
    (v : A) :
    (mapSet m k v).find? (fun p => decide (p.1 = k)) = some (k, v) := by
  unfold mapSet
  by_cases hin : m.any (fun p => decide (p.1 = k)) = true
  · simp only [hin, if_true]
    exact find_replace_self m k v hin
  · simp only [hin, if_false]
    exact find_append_self m k v hin

lemma lookupSession_mapSet_self (tr : TrackerState) (k : Str)
    (v : SessionState) (ev : List SessionEvt) :
    lookupSession { sessions := mapSet tr.sessions k v, events := ev } k
      = some v := by
  unfold lookupSession
  simp [find_mapSet_self]

lemma generateSingleModelHash_eq_joinU (m : ChatModel) :
    generateSingleModelHash (some m)
      = joinU ["single".data, m.id, m.name, m.provider] := by
  simp only [generateSingleModelHash, joinU,
    show ("single_".data : Str) = "single".data ++ ['_'] from rfl,
    show ("_".data : Str) = ['_'] from rfl,
    List.append_assoc, List.singleton_append, List.cons_append,
    List.nil_append]

lemma generateSingleModelHash_inj (a b : ChatModel) (ha : usFree a)
    (hb : usFree b)
    (h : generateSingleModelHash (some a) = generateSingleModelHash (some b)) :
    tripleEq a b := by
  rw [generateSingleModelHash_eq_joinU, generateSingleModelHash_eq_joinU] at h
  obtain ⟨ha1, ha2, ha3⟩ := ha
  obtain ⟨hb1, hb2, hb3⟩ := hb
  have := joinU_inj _ _ (by simp) ?_ ?_ h
  · injection this with e1 this
    injection this with e2 this
    injection this with e3 this
    injection this with e4 this
    exact ⟨e2, e3, e4⟩
  · intro t ht
    simp only [List.mem_cons, List.not_mem_nil, or_false] at ht
    rcases ht with rfl | rfl | rfl | rfl
    · decide
    · exact ha1
    · exact ha2
    · exact ha3
  · intro t ht
    simp only [List.mem_cons, List.not_mem_nil, or_false] at ht
    rcases ht with rfl | rfl | rfl | rfl
    · decide
    · exact hb1
    · exact hb2
    · exact hb3

/-- C6 counterexample: `handleSingleModelChange` detects a change only
through the `'_'`-joined hash, so under the default configuration a model
`B = (a_b, c, d)` differing from the bound `A = (a, b_c, d)` in both id and
name still yields `shouldReset = false`: both hash to `single_a_b_c_d`. -/
theorem handleSingleModelChange_collision :
    ((handleSingleModelChange
        (createSingleSession mgr0 (some (mkModel "a" "b_c" "d")) none 0).2
        (createSingleSession mgr0 (some (mkModel "a" "b_c" "d")) none 0).1.id
        (some (mkModel "a_b" "c" "d")) 5).1
      = (false,
        (createSingleSession mgr0 (some (mkModel "a" "b_c" "d")) none 0).1.id))
    ∧ ¬ tripleEq (mkModel "a" "b_c" "d") (mkModel "a_b" "c" "d") := by
  decide

/-- C6 (amended): under the default configuration, calling
`handleSingleModelChange` with a model equal by value to the bound one
returns `shouldReset = false` and leaves the session's `modelHash`
untouched; calling it with a model differing in id, name or provider
returns `shouldReset = true` **provided** the hashed fields contain no
`'_'` (the unescaped hash join can otherwise collide, see the
counterexample); and with `resetOnModelChange = false` it returns
`shouldReset = false` no matter what model is supplied. -/
theorem handleSingleModelChange_spec :
    (∀ (st : MgrState) (sid : Str) (A : ChatModel) (sess : SessionState)
        (now : Nat),
      st.config = DEFAULT_SESSION_CONFIG →
      lookupSession st.tracker sid = some sess →
      sess.modelHash = generateSingleModelHash (some A) →
      (handleSingleModelChange st sid (some A) now).1 = (false, sid) ∧
      (lookupSession (handleSingleModelChange st sid (some A) now).2.tracker
        sid).map SessionState.modelHash = some sess.modelHash) ∧
    (∀ (st : MgrState) (sid : Str) (A B : ChatModel) (sess : SessionState)
        (now : Nat),
      st.config = DEFAULT_SESSION_CONFIG →
      lookupSession st.tracker sid = some sess →
      sess.modelHash = generateSingleModelHash (some A) →
      usFree A → usFree B → ¬ tripleEq A B →
      (handleSingleModelChange st sid (some B) now).1.1 = true) ∧
    (∀ (st : MgrState) (sid : Str) (m : Option ChatModel) (now : Nat),
      st.config.resetOnModelChange = false →
      (handleSingleModelChange st sid m now).1.1 = false) := by
  refine ⟨?_, ?_, ?_⟩
  · intro st sid A sess now hcfg hlook hhash
    have hsr : shouldResetOnSingleModelChange st sid (some A) = false := by
      unfold shouldResetOnSingleModelChange
      rw [hcfg]
      simp [DEFAULT_SESSION_CONFIG, hlook, hhash, compareHashes]
    have hupd : updateActivity st.tracker sid now
        = { sessions := mapSet st.tracker.sessions sid
              { sess with lastActivity := now },
            events := st.tracker.events } := by
      unfold updateActivity
      rw [hlook]
    unfold handleSingleModelChange
    rw [hsr]
    refine ⟨rfl, ?_⟩
    show (lookupSession (updateActivity st.tracker sid now) sid).map
      SessionState.modelHash = some sess.modelHash
    rw [hupd, lookupSession_mapSet_self]
    rfl
  · intro st sid A B sess now hcfg hlook hhash hA hB hne
    have hne' : generateSingleModelHash (some A)
        ≠ generateSingleModelHash (some B) :=
      fun h => hne (generateSingleModelHash_inj A B hA hB h)
    have hsr : shouldResetOnSingleModelChange st sid (some B) = true := by
      unfold shouldResetOnSingleModelChange
      rw [hcfg]
      simp [DEFAULT_SESSION_CONFIG, hlook, hhash, compareHashes]
      exact hne'
    unfold handleSingleModelChange
    rw [hsr]
    by_cases har : st.config.autoReset = true <;> simp [har]
  · intro st sid m now hcfg
    have hsr : shouldResetOnSingleModelChange st sid m = false := by
      unfold shouldResetOnSingleModelChange
      rw [hcfg]
      simp
    unfold handleSingleModelChange
    rw [hsr]
    rfl

/-- Witness: `handleSingleModelChange_spec` applied to a concrete session
bound to `(a, n, p)`, re-selected as-is, changed to `(b, n, p)`, and with
the reset knob off. -/
theorem handleSingleModelChange_spec_witness :
    ((handleSingleModelChange
        (createSingleSession mgr0 (some (mkModel "a" "n" "p")) none 0).2
        (createSingleSession mgr0 (some (mkModel "a" "n" "p")) none 0).1.id
        (some (mkModel "a" "n" "p")) 5).1
      = (false,
        (createSingleSession mgr0 (some (mkModel "a" "n" "p")) none 0).1.id))
    ∧ ((handleSingleModelChange
        (createSingleSession mgr0 (some (mkModel "a" "n" "p")) none 0).2
        (createSingleSession mgr0 (some (mkModel "a" "n" "p")) none 0).1.id
        (some (mkModel "b" "n" "p")) 5).1.1 = true)
    ∧ ((handleSingleModelChange
        { mgr0 with config :=
          { DEFAULT_SESSION_CONFIG with resetOnModelChange := false } }
        "s1".data (some (mkModel "b" "n" "p")) 5).1.1 = false) := by
  refine ⟨?_, ?_, ?_⟩
  · exact (handleSingleModelChange_spec.1
      (createSingleSession mgr0 (some (mkModel "a" "n" "p")) none 0).2
      (createSingleSession mgr0 (some (mkModel "a" "n" "p")) none 0).1.id
      (mkModel "a" "n" "p")
      (createSingleSession mgr0 (some (mkModel "a" "n" "p")) none 0).1
      5 rfl (by decide) (by decide)).1
  · exact handleSingleModelChange_spec.2.1
      (createSingleSession mgr0 (some (mkModel "a" "n" "p")) none 0).2
      (createSingleSession mgr0 (some (mkModel "a" "n" "p")) none 0).1.id
      (mkModel "a" "n" "p") (mkModel "b" "n" "p")
      (createSingleSession mgr0 (some (mkModel "a" "n" "p")) none 0).1
      5 rfl (by decide) (by decide) (by decide) (by decide) (by decide)
  · exact handleSingleModelChange_spec.2.2
      { mgr0 with config :=
        { DEFAULT_SESSION_CONFIG with resetOnModelChange := false } }
      "s1".data (some (mkModel "b" "n" "p")) 5 rfl

/-! ## Chat persistence cache (src/lib/chat-persistence.ts first half) -/

/-- Message roles. -/
inductive Role
  | user
  | assistant
deriving DecidableEq, Repr

/-- `Message` (src/types/chat.ts), as used by the orchestrators: `id`,
`role`, `content`, `timestamp`, optional display `model`, `isStreaming`,
terminal `error`, extracted `thinking`/`thinkingTime`, and `sessionId`. -/
structure Message where
  id : Str
  role : Role
  content : Str
  timestamp : Nat
  model : Option Str := none
  isStreaming : Bool := false
  error : Option Str := none
  thinking : Option Str := none
  thinkingTime : Option Rat := none
  sessionId : Option Str := none
deriving DecidableEq, Repr

/-- `PersistedComparisonChat`. -/
structure PersistedComparisonChat where
  leftMessages : List Message
  rightMessages : List Message
  leftModelId : Str
  rightModelId : Str
  lastUpdated : Nat
deriving DecidableEq, Repr

/-- Lexicographic comparison on UTF-16 code units — the default
`Array.prototype.sort` string order. -/
def strLt : Str → Str → Bool
  | [], [] => false
  | [], _ :: _ => true
  | _ :: _, [] => false
  | a :: x, b :: y =>
    if a.toNat < b.toNat then true
    else if b.toNat < a.toNat then false
    else strLt x y

/-- `generateComparisonChatKey(leftModelId, rightModelId)`: sort the two ids
(`[leftModelId, rightModelId].sort()`) so the key is order-independent. -/
def generateComparisonChatKey (leftModelId rightModelId : Str) : Str :=
  let sorted :=
    if strLt rightModelId leftModelId then (rightModelId, leftModelId)
    else (leftModelId, rightModelId)
  "comparison_".data ++ sorted.1 ++ "_".data ++ sorted.2

/-- `ChatPersistenceManager.saveComparisonChat(leftModel, rightModel,
leftMessages, rightMessages)` acting on the module-level
`persistedComparisonChats` map. -/
def saveComparisonChat (store : List (Str × PersistedComparisonChat)) :
    Option ChatModel → Option ChatModel → List Message → List Message →
    Nat → List (Str × PersistedComparisonChat)
  | some lm, some rm, lms, rms, now =>
    if lm.id = [] ∨ rm.id = [] then store
    else
      mapSet store (generateComparisonChatKey lm.id rm.id)
        { leftMessages := lms, rightMessages := rms,
          leftModelId := lm.id, rightModelId := rm.id, lastUpdated := now }
  | _, _, _, _, _ => store

/-- `ChatPersistenceManager.getComparisonChat(leftModel, rightModel)`:
look the sorted pair key up, then return the stored copies only when the
stored left/right model ids match the queried ones in that orientation. -/
def getComparisonChat (store : List (Str × PersistedComparisonChat)) :
    Option ChatModel → Option ChatModel → List Message × List Message
  | some lm, some rm =>
    if lm.id = [] ∨ rm.id = [] then ([], [])
    else
      match lookupKey store (generateComparisonChatKey lm.id rm.id) with
      | some persisted =>
        if persisted.leftModelId = lm.id ∧ persisted.rightModelId = rm.id then
          (persisted.leftMessages, persisted.rightMessages)
        else ([], [])
      | none => ([], [])
  | _, _ => ([], [])

/-- A concrete message for evaluation. -/
def m1 : Message :=
  { id := "1".data, role := Role.user, content := "hi".data, timestamp := 0 }

/-- C3: after `saveComparisonChat(A, B, [m1], [])` with distinct non-empty
ids, the swapped lookup `getComparisonChat(B, A)` maps to the same sorted
key as `getComparisonChat(A, B)`, yet returns empty lists while the direct
lookup returns the stored history: the orientation guard
`persisted.leftModelId === leftModel.id && persisted.rightModelId ===
rightModel.id` defeats the order-independent key. -/
theorem getComparisonChat_swap_empty :
    (generateComparisonChatKey (mkModel "a" "an" "p").id
        (mkModel "b" "bn" "p").id
      = generateComparisonChatKey (mkModel "b" "bn" "p").id
        (mkModel "a" "an" "p").id) ∧
    (getComparisonChat
        (saveComparisonChat [] (some (mkModel "a" "an" "p"))
          (some (mkModel "b" "bn" "p")) [m1] [] 0)
        (some (mkModel "a" "an" "p")) (some (mkModel "b" "bn" "p"))
      = ([m1], [])) ∧
    (getComparisonChat
        (saveComparisonChat [] (some (mkModel "a" "an" "p"))
          (some (mkModel "b" "bn" "p")) [m1] [] 0)
        (some (mkModel "b" "bn" "p")) (some (mkModel "a" "an" "p"))
      = ([], [])) := by
  decide

/-! ## Event-stream decoder (src/lib/api-client.ts, `ApiClient.streamResponse`)

The source consumes `Uint8Array` reads through `TextDecoder(stream: true)`,
which buffers incomplete multi-byte UTF-8 sequences across reads; the model
therefore works on the decoded text of each read.  A byte-level split at a
character boundary corresponds exactly to a text-chunk split here. -/

/-- JSON values as produced by `JSON.parse`.  Numeric literals keep their
source text (the decoded events of this protocol carry strings, arrays and
objects; no modelled code path inspects a parsed number's value beyond
truthiness). -/
inductive Json
  | jnull
  | jbool (b : Bool)
  | jnum (raw : Str)
  | jstr (s : Str)
  | jarr (xs : List Json)
  | jobj (kvs : List (Str × Json))

/-- JSON insignificant whitespace. -/
def jsonWs (c : Char) : Bool :=
  c = ' ' || c = '\t' || c = '\n' || c = '\r'

/-- Skip insignificant whitespace. -/
def skipWs (s : Str) : Str := s.dropWhile jsonWs

/-- Hexadecimal digit value. -/
def hexVal (c : Char) : Option Nat :=
  if c.isDigit then some (c.toNat - 48)
  else if 'a' ≤ c ∧ c ≤ 'f' then some (c.toNat - 87)
  else if 'A' ≤ c ∧ c ≤ 'F' then some (c.toNat - 55)
  else none

/-- Parse the body of a JSON string (the opening quote already consumed):
returns the decoded characters and the remaining input, or `none` when the
string is unterminated or has an invalid escape. -/
def parseStrBody : Nat → Str → Option (Str × Str)
  | 0, _ => none
  | _ + 1, [] => none
  | fuel + 1, c :: rest =>
    if c = '"' then some ([], rest)
    else if c = '\\' then
      match rest with
      | [] => none
      | e :: rest2 =>
        let cont : Char → Str → Option (Str × Str) := fun ch r =>
          (parseStrBody fuel r).map (fun p => (ch :: p.1, p.2))
        if e = '"' then cont '"' rest2
        else if e = '\\' then cont '\\' rest2
        else if e = '/' then cont '/' rest2
        else if e = 'b' then cont '\x08' rest2
        else if e = 'f' then cont '\x0c' rest2
        else if e = 'n' then cont '\n' rest2
        else if e = 'r' then cont '\r' rest2
        else if e = 't' then cont '\t' rest2
        else if e = 'u' then
          match rest2 with
          | h1 :: h2 :: h3 :: h4 :: rest3 =>
            match hexVal h1, hexVal h2, hexVal h3, hexVal h4 with
            | some a, some b, some c2, some d =>
              cont (Char.ofNat (((a * 16 + b) * 16 + c2) * 16 + d)) rest3
            | _, _, _, _ => none
          | _ => none
        else none
    else (parseStrBody fuel rest).map (fun p => (c :: p.1, p.2))

/-- Characters a JSON numeric literal may contain. -/
def numChar (c : Char) : Bool :=
  c.isDigit || c = '-' || c = '+' || c = '.' || c = 'e' || c = 'E'

/-- Coarse shape check for a numeric literal (full grammar not needed: the
modelled streams never carry malformed numerics). -/
def validNum (raw : Str) : Bool :=
  match raw with
  | [] => false
  | c :: _ => (c = '-' || c.isDigit) && raw.any Char.isDigit

/-- What `parseStep` is currently parsing: a value, the members of an object
after `{`, or the elements of an array after `[`. -/
inductive PKind
  | value
  | objRest
  | arrRest
deriving DecidableEq, Repr

/-- Output of one `parseStep`. -/
inductive POut
  | val (j : Json)
  | fields (kvs : List (Str × Json))
  | items (xs : List Json)

/-- Recursive-descent JSON parser, fuel-driven (any fuel above the input
length is enough: every recursive call consumes input). -/
def parseStep : Nat → PKind → Str → Option (POut × Str)
  | 0, _, _ => none
  | fuel + 1, PKind.value, s =>
    match skipWs s with
    | [] => none
    | c :: rest =>
      if c = '"' then
        (parseStrBody (fuel + 1) rest).map (fun p => (POut.val (Json.jstr p.1), p.2))
      else if c = '{' then
        match parseStep fuel PKind.objRest rest with
        | some (POut.fields kvs, r) => some (POut.val (Json.jobj kvs), r)
        | _ => none
      else if c = '[' then
        match parseStep fuel PKind.arrRest rest with
        | some (POut.items xs, r) => some (POut.val (Json.jarr xs), r)
        | _ => none
      else if c = 't' then
        if rest.take 3 = "rue".data then
          some (POut.val (Json.jbool true), rest.drop 3)
        else none
      else if c = 'f' then
        if rest.take 4 = "alse".data then
          some (POut.val (Json.jbool false), rest.drop 4)
        else none
      else if c = 'n' then
        if rest.take 3 = "ull".data then
          some (POut.val Json.jnull, rest.drop 3)
        else none
      else
        let raw := (c :: rest).takeWhile numChar
        if validNum raw then
          some (POut.val (Json.jnum raw), (c :: rest).drop raw.length)
        else none
  | fuel + 1, PKind.objRest, s =>
    match skipWs s with
    | [] => none
    | c :: rest =>
      if c = '}' then some (POut.fields [], rest)
      else if c = '"' then
        match parseStrBody (fuel + 1) rest with
        | none => none
        | some (key, r1) =>
          match skipWs r1 with
          | ':' :: r2 =>
            match parseStep fuel PKind.value r2 with
            | some (POut.val v, r3) =>
              match skipWs r3 with
              | ',' :: r4 =>
                match parseStep fuel PKind.objRest r4 with
                | some (POut.fields kvs, r5) =>
                  some (POut.fields ((key, v) :: kvs), r5)
                | _ => none
              | '}' :: r4 => some (POut.fields [(key, v)], r4)
              | _ => none
            | _ => none
          | _ => none
      else none
  | fuel + 1, PKind.arrRest, s =>
    match skipWs s with
    | [] => none
    | c :: rest =>
      if c = ']' then some (POut.items [], rest)
      else
        match parseStep fuel PKind.value (c :: rest) with
        | some (POut.val v, r1) =>
          match skipWs r1 with
          | ',' :: r2 =>
            match parseStep fuel PKind.arrRest r2 with
            | some (POut.items xs, r3) => some (POut.items (v :: xs), r3)
            | _ => none
          | ']' :: r2 => some (POut.items [v], r2)
          | _ => none
        | _ => none

/-- `JSON.parse(data)`: parse one value and require only whitespace after
it; `none` models the thrown `SyntaxError`. -/
def jsonParse (s : Str) : Option Json :=
  match parseStep (s.length + 1) PKind.value s with
  | some (POut.val j, rest) => if skipWs rest = [] then some j else none
  | _ => none

/-- JS property access `parsed[key]` on a parsed JSON value (`none` models
`undefined`). -/
def jGet (j : Json) (key : Str) : Option Json :=
  match j with
  | Json.jobj kvs => (kvs.find? (fun p => decide (p.1 = key))).map Prod.snd
  | _ => none

/-- `parsed[key]` when the property is a string, else `none`. -/
def jGetStr (j : Json) (key : Str) : Option Str :=
  match jGet j key with
  | some (Json.jstr s) => some s
  | _ => none

/-- All mantissa digits of a numeric literal are zero. -/
def numIsZero (raw : Str) : Bool :=
  (raw.takeWhile (fun c => !(c = 'e' || c = 'E'))).all
    (fun c => !c.isDigit || c = '0')

/-- JS truthiness of a property (absent / `null` / `false` / `""` / `0` are
falsy; arrays and objects are truthy). -/
def jTruthy : Option Json → Bool
  | none => false
  | some Json.jnull => false
  | some (Json.jbool b) => b
  | some (Json.jstr s) => !s.isEmpty
  | some (Json.jnum raw) => !numIsZero raw
  | some (Json.jarr _) => true
  | some (Json.jobj _) => true

/-- String-escape for `JSON.stringify`. -/
def jsonEscChar (c : Char) : Str :=
  if c = '"' then ['\\', '"']
  else if c = '\\' then ['\\', '\\']
  else if c = '\n' then ['\\', 'n']
  else if c = '\r' then ['\\', 'r']
  else if c = '\t' then ['\\', 't']
  else if c = '\x08' then ['\\', 'b']
  else if c = '\x0c' then ['\\', 'f']
  else [c]

/-- Join with commas. -/
def joinComma : List Str → Str
  | [] => []
  | [x] => x
  | x :: xs => x ++ ',' :: joinComma xs

/-- `JSON.stringify`, fuel-driven over the nesting depth (any fuel above the
depth of the value is enough; values parsed from a line of length `n` have
depth at most `n`). -/
def jsonStringify : Nat → Json → Str
  | _, Json.jnull => "null".data
  | _, Json.jbool true => "true".data
  | _, Json.jbool false => "false".data
  | _, Json.jnum raw => raw
  | _, Json.jstr s => '"' :: (s.map jsonEscChar).flatten ++ ['"']
  | 0, Json.jarr _ => []
  | fuel + 1, Json.jarr xs =>
    '[' :: joinComma (xs.map (jsonStringify fuel)) ++ [']']
  | 0, Json.jobj _ => []
  | fuel + 1, Json.jobj kvs =>
    '{' :: joinComma (kvs.map (fun p =>
      '"' :: (p.1.map jsonEscChar).flatten ++ ['"', ':']
        ++ jsonStringify fuel p.2)) ++ ['}']

/-- JS string coercion of a value interpolated into a template literal or
yielded where a string is expected.  Only strings are exercised by the
modelled streams; other cases follow `String()` loosely (numbers keep their
source literal). -/
def jsDisplay (fuel : Nat) : Json → Str
  | Json.jstr s => s
  | Json.jnull => "null".data
  | Json.jbool true => "true".data
  | Json.jbool false => "false".data
  | Json.jnum raw => raw
  | j => jsonStringify fuel j

/-- What processing one assembled line does. -/
inductive LineRes
  | skip
  | yieldS (s : Str)
  | halt
deriving DecidableEq, Repr

/-- `s` starts with `pat`. -/
def listStartsWith (s pat : Str) : Bool :=
  decide (s.take pat.length = pat)

/-- The `data: ` line marker. -/
def dataPfx : Str := "data: ".data

/-- The body of `streamResponse`'s `try` block for one `data:` payload:
`JSON.parse` then dispatch on `parsed.type`.  `Except.error` models a
thrown exception — from `JSON.parse` on a malformed payload, or from
`throw new Error(parsed.error || 'Unknown error')` on an `error`-typed
event. -/
def lineTry (data : Str) : Except Str LineRes :=
  match jsonParse data with
  | none => Except.error "SyntaxError".data
  | some parsed =>
    if jGetStr parsed "type".data = some "content".data
        ∧ jTruthy (jGet parsed "content".data) then
      Except.ok (LineRes.yieldS
        (jsDisplay data.length ((jGet parsed "content".data).getD Json.jnull)))
    else if jGetStr parsed "type".data = some "tool_calls".data
        ∧ jTruthy (jGet parsed "tool_calls".data) then
      Except.ok (LineRes.yieldS
        ('\n' :: "__TOOL_CALLS__:".data
          ++ jsonStringify data.length
              ((jGet parsed "tool_calls".data).getD Json.jnull)
          ++ ['\n']))
    else if jGetStr parsed "type".data = some "finish_reason".data
        ∧ jTruthy (jGet parsed "finish_reason".data) then
      Except.ok (LineRes.yieldS
        ('\n' :: "__FINISH_REASON__:".data
          ++ jsDisplay data.length
              ((jGet parsed "finish_reason".data).getD Json.jnull)
          ++ ['\n']))
    else if jGetStr parsed "type".data = some "done".data then
      Except.ok LineRes.halt
    else if jGetStr parsed "type".data = some "error".data then
      Except.error
        (if jTruthy (jGet parsed "error".data) then
          jsDisplay data.length ((jGet parsed "error".data).getD Json.jnull)
        else "Unknown error".data)
    else Except.ok LineRes.skip

/-- Processing of one line of a chunk: skip blank lines and lines without
the `data: ` marker; `[DONE]` ends the generator; otherwise run the `try`
body, the `catch` turning any exception into a logged skip. -/
def processLine (line : Str) : LineRes :=
  if jsTrim line = [] then LineRes.skip
  else if listStartsWith line dataPfx then
    let data := line.drop 6
    if data = "[DONE]".data then LineRes.halt
    else
      match lineTry data with
      | Except.ok r => r
      | Except.error _ => LineRes.skip
  else LineRes.skip

/-- `String.prototype.split('\n')`. -/
def splitNl : Str → List Str
  | [] => [[]]
  | c :: t =>
    match splitNl t with
    | [] => [[]]
    | h :: r => if c = '\n' then [] :: h :: r else (c :: h) :: r

/-- Run the `for (const line of lines)` loop: collected yields plus whether
the generator returned. -/
def runLines : List Str → List Str × Bool
  | [] => ([], false)
  | l :: rest =>
    match processLine l with
    | LineRes.skip => runLines rest
    | LineRes.yieldS s =>
      let r := runLines rest
      (s :: r.1, r.2)
    | LineRes.halt => ([], true)

/-- Run the outer read loop of `ApiClient.streamResponse` over the decoded
text of each read: each chunk is split on `'\n'` and every resulting line is
processed immediately — there is no carry of a partial line to the next
read.  Returns the yielded strings and whether the generator returned
early. -/
def runChunks : List Str → List Str × Bool
  | [] => ([], false)
  | ch :: rest =>
    let r := runLines (splitNl ch)
    if r.2 then (r.1, true)
    else
      let r2 := runChunks rest
      (r.1 ++ r2.1, r2.2)

/-- The sequence of strings `ApiClient.streamResponse` yields for a given
sequence of decoded reads. -/
def streamResponse (chunks : List Str) : List Str :=
  (runChunks chunks).1

/-- The serialized content event used to exhibit C1. -/
def c1full : Str := "data: \x7b\"type\":\"content\",\"content\":\"hi\"\x7d\n".data

/-- C1: `streamResponse` does not buffer partial lines across reads.  The
same bytes that yield the event `"hi"` when delivered as one read yield
nothing when split mid-line after 19 characters: the first fragment fails
`JSON.parse` and is skipped, the second lacks the `data: ` marker and is
skipped, so chunked and unchunked decoding disagree. -/
theorem streamResponse_drops_split_line :
    streamResponse [c1full] = ["hi".data] ∧
    c1full.take 19 ++ c1full.drop 19 = c1full ∧
    streamResponse [c1full.take 19, c1full.drop 19] = [] := by
  refine ⟨by decide, by decide, by decide⟩

/-- An error-typed event followed by a content event, in one read. -/
def c2chunk : Str :=
  ("data: \x7b\"type\":\"error\",\"error\":\"boom\"\x7d\n"
    ++ "data: \x7b\"type\":\"content\",\"content\":\"after\"\x7d\n").data

/-- C2: an `error`-typed event does not terminate decoding and raises
nothing to the caller: the `throw new Error(parsed.error)` sits inside the
same `try` whose `catch` swallows parse failures (modelled by `processLine`
mapping `lineTry`'s `Except.error` to a skip), so the decoder continues and
yields the following content event; the run does not even end early. -/
theorem streamResponse_swallows_error_event :
    runChunks [c2chunk] = (["after".data], false) := by
  decide

/-! ## Comparison orchestrator join (src/hooks/use-comparison-chat.ts,
`sendMessage` phase 2/3)

Each stream task is a sequence of atomic `setState` updates; the left task's
updaters touch only `leftChat`, the right task's only `rightChat` (verbatim
from the source).  The cooperative scheduler may interleave the two tasks'
updates arbitrarily; `Promise.allSettled` applies them all, each task
converting its own failure into a final error update via its `catch`. -/

/-- One side's chat state (`leftChat` / `rightChat`). -/
structure ChatSide where
  messages : List Message
  isLoading : Bool
  error : Option Str
deriving DecidableEq, Repr

/-- `messages.map(msg => msg.id === aid ? f(msg) : msg)`. -/
def updMsg (aid : Str) (f : Message → Message) (ms : List Message) :
    List Message :=
  ms.map (fun m => if m.id = aid then f m else m)

/-- Per-chunk message rewrite: content/thinking/thinkingTime from the
re-parsed full buffer. -/
def msgChunk (pr : ThinkingParseResult) (m : Message) : Message :=
  { m with
    content := pr.content, thinking := some pr.thinking,
    thinkingTime := pr.thinkingTime }

/-- Stream-completion message rewrite. -/
def msgDone (m : Message) : Message :=
  { m with isStreaming := false }

/-- Stream-failure message rewrite (`catch` branch): error set, streaming
ended, content rolled back to empty. -/
def msgErr (m : Message) : Message :=
  { m with
    error := some "Failed to generate response".data,
    isStreaming := false, content := [] }

/-- `setState` for one decoded content chunk of one side. -/
def chunkUpd (aid : Str) (pr : ThinkingParseResult) (cs : ChatSide) :
    ChatSide :=
  { cs with messages := updMsg aid (msgChunk pr) cs.messages }

/-- `setState` after a side's stream ends normally. -/
def doneUpd (aid : Str) (cs : ChatSide) : ChatSide :=
  { messages := updMsg aid msgDone cs.messages, isLoading := false,
    error := cs.error }

/-- `setState` in a side's `catch` handler (`sideMsg` is the side-level
banner, `"Left model failed to respond"` / `"Right model failed to
respond"`). -/
def errUpd (aid : Str) (sideMsg : Str) (cs : ChatSide) : ChatSide :=
  { messages := updMsg aid msgErr cs.messages, isLoading := false,
    error := some sideMsg }

/-- What one side's stream did: the content chunks it yielded (each with
the `Date.now()` of that iteration) and whether it then completed (`ok`) or
threw. -/
structure StreamOutcome where
  chunks : List (Str × Nat)
  ok : Bool

/-- The chunk updates of one side, accumulating the content buffer. -/
def chunkUpds (aid : Str) (startTime : Nat) (acc : Str) :
    List (Str × Nat) → List (ChatSide → ChatSide)
  | [] => []
  | (c, t) :: rest =>
    chunkUpd aid (parseThinkingContent (acc ++ c) (some startTime) t)
      :: chunkUpds aid startTime (acc ++ c) rest

/-- All atomic updates one stream task performs, in order: one per chunk,
then either the done update or (from its own `catch`) the error update.
The task never lets an exception escape. -/
def sideTaskUpds (aid : Str) (startTime : Nat) (sideMsg : Str)
    (o : StreamOutcome) : List (ChatSide → ChatSide) :=
  chunkUpds aid startTime [] o.chunks
    ++ [if o.ok then doneUpd aid else errUpd aid sideMsg]

/-- Apply one atomic update: a left-task update touches only `leftChat`, a
right-task update only `rightChat`. -/
def applyUpd (st : ChatSide × ChatSide) :
    (ChatSide → ChatSide) ⊕ (ChatSide → ChatSide) → ChatSide × ChatSide
  | Sum.inl f => (f st.1, st.2)
  | Sum.inr g => (st.1, g st.2)

/-- Run an interleaved update sequence. -/
def runUpds (st : ChatSide × ChatSide)
    (ws : List ((ChatSide → ChatSide) ⊕ (ChatSide → ChatSide))) :
    ChatSide × ChatSide :=
  ws.foldl applyUpd st

/-- `ws` is an interleaving of `as` (tagged left) and `bs` (tagged right),
preserving each list's order — every schedule the event loop may produce. -/
inductive Ilv {α β : Type} : List α → List β → List (α ⊕ β) → Prop
  | nil : Ilv [] [] []
  | left {a : α} {as : List α} {bs : List β} {cs : List (α ⊕ β)} :
      Ilv as bs cs → Ilv (a :: as) bs (Sum.inl a :: cs)
  | right {b : β} {as : List α} {bs : List β} {cs : List (α ⊕ β)} :
      Ilv as bs cs → Ilv as (b :: bs) (Sum.inr b :: cs)

/-- Message found by id (`messages.find(...)`-style view of a side). -/
def getMsg (cs : ChatSide) (aid : Str) : Option Message :=
  cs.messages.find? (fun m => decide (m.id = aid))

/-- Running any interleaving equals running each side's updates on its own
component: the tasks share no mutable state below the pair. -/
lemma runUpds_ilv (ls rs : List (ChatSide → ChatSide))
    (ws : List ((ChatSide → ChatSide) ⊕ (ChatSide → ChatSide)))
    (h : Ilv ls rs ws) (st : ChatSide × ChatSide) :
    runUpds st ws
      = (ls.foldl (fun s f => f s) st.1, rs.foldl (fun s g => g s) st.2) := by
  induction h generalizing st with
  | nil => rfl
  | left _ ih =>
    show runUpds (applyUpd st _) _ = _
    rw [ih]
    rfl
  | right _ ih =>
    show runUpds (applyUpd st _) _ = _
    rw [ih]
    rfl

/-- All content yielded by a stream outcome, in order. -/
def strConcat (chunks : List (Str × Nat)) : Str :=
  (chunks.map Prod.fst).flatten

/-- The visible content the Thinking Extractor derives from a full buffer
(clock-independent by `parseThinkingContent_view_pure`). -/
def finalContent (s : Str) : Str :=
  (parseThinkingContent s none 0).content

lemma find_updMsg (aid : Str) (f : Message → Message)
    (hf : ∀ m, (f m).id = m.id) (ms : List Message) :
    (updMsg aid f ms).find? (fun m => decide (m.id = aid))
      = (ms.find? (fun m => decide (m.id = aid))).map f := by
  induction ms with
  | nil => rfl
  | cons m t ih =>
    by_cases hm : m.id = aid
    · have hfm : (f m).id = aid := by rw [hf m, hm]
      simp [updMsg, List.find?, hm, hfm]
    · have l1 : List.find? (fun q => decide (q.id = aid))
          (m :: (updMsg aid f t))
          = List.find? (fun q => decide (q.id = aid)) (updMsg aid f t) := by
        simp [List.find?, hm]
      have l2 : List.find? (fun q => decide (q.id = aid)) (m :: t)
          = List.find? (fun q => decide (q.id = aid)) t := by
        simp [List.find?, hm]
      have hcons : updMsg aid f (m :: t) = m :: updMsg aid f t := by
        simp [updMsg, hm]
      rw [hcons, l1, l2]
      exact ih

lemma getMsg_chunkUpd (aid : Str) (pr : ThinkingParseResult) (cs : ChatSide) :
    getMsg (chunkUpd aid pr cs) aid = (getMsg cs aid).map (msgChunk pr) :=
  find_updMsg aid (msgChunk pr) (fun _ => rfl) cs.messages

lemma getMsg_doneUpd (aid : Str) (cs : ChatSide) :
    getMsg (doneUpd aid cs) aid = (getMsg cs aid).map msgDone :=
  find_updMsg aid msgDone (fun _ => rfl) cs.messages

lemma getMsg_errUpd (aid sideMsg : Str) (cs : ChatSide) :
    getMsg (errUpd aid sideMsg cs) aid = (getMsg cs aid).map msgErr :=
  find_updMsg aid msgErr (fun _ => rfl) cs.messages

lemma fold_chunkUpds_spec (aid : Str) (stT : Nat)
    (chunks : List (Str × Nat)) :
    ∀ (acc : Str) (cs : ChatSide) (m : Message), getMsg cs aid = some m →
    ∃ m', getMsg (List.foldl (fun s f => f s) cs
        (chunkUpds aid stT acc chunks)) aid = some m'
      ∧ m'.isStreaming = m.isStreaming ∧ m'.error = m.error
      ∧ m'.content = (if chunks = [] then m.content
          else finalContent (acc ++ strConcat chunks))
      ∧ (List.foldl (fun s f => f s) cs
          (chunkUpds aid stT acc chunks)).isLoading = cs.isLoading
      ∧ (List.foldl (fun s f => f s) cs
          (chunkUpds aid stT acc chunks)).error = cs.error := by
  induction chunks with
  | nil =>
    intro acc cs m h
    exact ⟨m, h, rfl, rfl, by simp, rfl, rfl⟩
  | cons ct rest ih =>
    intro acc cs m h
    obtain ⟨c, t⟩ := ct
    simp only [chunkUpds, List.foldl_cons]
    have h1 : getMsg (chunkUpd aid (parseThinkingContent (acc ++ c)
          (some stT) t) cs) aid
        = some (msgChunk (parseThinkingContent (acc ++ c) (some stT) t) m) := by
      rw [getMsg_chunkUpd, h]
      rfl
    obtain ⟨m', hm', hstr, herr, hcont, hload, herr2⟩ :=
      ih (acc ++ c) (chunkUpd aid _ cs) _ h1
    refine ⟨m', hm', hstr.trans rfl, herr.trans rfl, ?_, hload.trans rfl,
      herr2.trans rfl⟩
    by_cases hr : rest = []
    · subst hr
      rw [if_pos rfl] at hcont
      rw [if_neg (by simp), hcont]
      show (parseThinkingContent (acc ++ c) (some stT) t).content
        = finalContent (acc ++ strConcat [(c, t)])
      rw [(parseThinkingContent_view_pure (acc ++ c) (some stT) none t 0).2]
      unfold finalContent strConcat
      simp
    · rw [if_neg hr] at hcont
      rw [if_neg (by simp), hcont]
      unfold finalContent strConcat
      simp [List.append_assoc]

lemma sideTask_spec (aid stMsg : Str) (stT : Nat) (o : StreamOutcome)
    (cs : ChatSide) (m : Message) (h : getMsg cs aid = some m)
    (hc : m.content = []) (he : m.error = none) :
    ∃ m', getMsg (List.foldl (fun s f => f s) cs
        (sideTaskUpds aid stT stMsg o)) aid = some m'
      ∧ m'.isStreaming = false
      ∧ (o.ok = true → m'.content = finalContent (strConcat o.chunks)
          ∧ m'.error = none)
      ∧ (o.ok = false → m'.content = []
          ∧ m'.error = some "Failed to generate response".data)
      ∧ (List.foldl (fun s f => f s) cs
          (sideTaskUpds aid stT stMsg o)).isLoading = false
      ∧ (o.ok = true → (List.foldl (fun s f => f s) cs
          (sideTaskUpds aid stT stMsg o)).error = cs.error)
      ∧ (o.ok = false → (List.foldl (fun s f => f s) cs
          (sideTaskUpds aid stT stMsg o)).error = some stMsg) := by
  obtain ⟨m1, hm1, hstr1, herr1, hcont1, hload1, herr2⟩ :=
    fold_chunkUpds_spec aid stT o.chunks [] cs m h
  have hmid : m1.content = finalContent (strConcat o.chunks) := by
    by_cases hch : o.chunks = []
    · rw [hch] at hcont1
      rw [if_pos rfl] at hcont1
      rw [hcont1, hc, hch]
      rfl
    · rw [if_neg hch] at hcont1
      rw [hcont1]
      simp
  unfold sideTaskUpds
  rw [List.foldl_append]
  cases hok : o.ok with
  | true =>
    rw [if_pos rfl]
    simp only [List.foldl_cons, List.foldl_nil]
    refine ⟨msgDone m1, ?_, rfl, ?_, ?_, rfl, ?_, ?_⟩
    · rw [getMsg_doneUpd, hm1]
      rfl
    · intro _
      exact ⟨hmid, herr1.trans he⟩
    · intro hcontra
      exact Bool.noConfusion hcontra
    · intro _
      exact herr2
    · intro hcontra
      exact Bool.noConfusion hcontra
  | false =>
    rw [if_neg (by simp)]
    simp only [List.foldl_cons, List.foldl_nil]
    refine ⟨msgErr m1, ?_, rfl, ?_, ?_, rfl, ?_, ?_⟩
    · rw [getMsg_errUpd, hm1]
      rfl
    · intro hcontra
      exact Bool.noConfusion hcontra
    · intro _
      exact ⟨rfl, rfl⟩
    · intro hcontra
      exact Bool.noConfusion hcontra
    · intro _
      rfl

lemma getMsg_optimistic (prior : List Message) (user a : Message) (ld : Bool)
    (er : Option Str) (hp : ∀ m ∈ prior, m.id ≠ a.id) (hu : user.id ≠ a.id) :
    getMsg { messages := prior ++ [user, a], isLoading := ld, error := er }
      a.id = some a := by
  unfold getMsg
  induction prior with
  | nil => simp [List.find?, hu]
  | cons p t ih =>
    have hpne : p.id ≠ a.id := hp p (List.mem_cons_self _ _)
    rw [List.cons_append,
      show List.find? (fun q => decide (q.id = a.id))
          (p :: (t ++ [user, a]))
        = List.find? (fun q => decide (q.id = a.id)) (t ++ [user, a]) by
        simp [List.find?, hpne]]
    exact ih fun q hq => hp q (List.mem_cons_of_mem _ hq)

lemma ilv_append {α β : Type} (as : List α) (bs : List β) :
    Ilv as bs (as.map Sum.inl ++ bs.map Sum.inr) := by
  induction as with
  | nil =>
    induction bs with
    | nil => exact Ilv.nil
    | cons b bt ihb => exact Ilv.right ihb
  | cons a at2 iha => exact Ilv.left iha

/-- C4: at the `Promise.allSettled` join of comparison `sendMessage`, for
every schedule interleaving the two stream tasks' atomic state updates and
for any pair of stream outcomes: each side's assistant message ends
`isStreaming = false`; a failed side ends with `error` set and its content
rolled back to empty; a successful side ends with the full streamed content
derived from all its chunks — in particular a left failure leaves the right
stream's result intact (it is not cancelled), only the failed side's chat
gets the failure banner, and both tasks run to completion (each converts its
own failure into a state update, so nothing escapes the join — the model's
tasks are total functions). -/
theorem comparison_join_isolation
    (priorL priorR : List Message) (user aL aR : Message) (stL stR : Nat)
    (oL oR : StreamOutcome)
    (ws : List ((ChatSide → ChatSide) ⊕ (ChatSide → ChatSide)))
    (hpL : ∀ m ∈ priorL, m.id ≠ aL.id) (huL : user.id ≠ aL.id)
    (hpR : ∀ m ∈ priorR, m.id ≠ aR.id) (huR : user.id ≠ aR.id)
    (hcL : aL.content = []) (heL : aL.error = none)
    (hcR : aR.content = []) (heR : aR.error = none)
    (hilv : Ilv (sideTaskUpds aL.id stL "Left model failed to respond".data oL)
      (sideTaskUpds aR.id stR "Right model failed to respond".data oR) ws) :
    let st0 : ChatSide × ChatSide :=
      ({ messages := priorL ++ [user, aL], isLoading := true, error := none },
       { messages := priorR ++ [user, aR], isLoading := true, error := none })
    let fin := runUpds st0 ws
    (∃ mL, getMsg fin.1 aL.id = some mL ∧ mL.isStreaming = false
      ∧ (oL.ok = false → mL.error = some "Failed to generate response".data
          ∧ mL.content = [])
      ∧ (oL.ok = true → mL.content = finalContent (strConcat oL.chunks)
          ∧ mL.error = none))
    ∧ (∃ mR, getMsg fin.2 aR.id = some mR ∧ mR.isStreaming = false
      ∧ (oR.ok = false → mR.error = some "Failed to generate response".data
          ∧ mR.content = [])
      ∧ (oR.ok = true → mR.content = finalContent (strConcat oR.chunks)
          ∧ mR.error = none))
    ∧ fin.1.isLoading = false ∧ fin.2.isLoading = false
    ∧ (oL.ok = false → fin.1.error
        = some "Left model failed to respond".data)
    ∧ (oR.ok = true → fin.2.error = none) := by
  intro st0 fin
  have hrun := runUpds_ilv _ _ _ hilv st0
  have hL := sideTask_spec aL.id "Left model failed to respond".data stL oL
    st0.1 aL (getMsg_optimistic priorL user aL true none hpL huL) hcL heL
  have hR := sideTask_spec aR.id "Right model failed to respond".data stR oR
    st0.2 aR (getMsg_optimistic priorR user aR true none hpR huR) hcR heR
  obtain ⟨mL, hmL, hsL, hokL, hfailL, hldL, heL1, heL2⟩ := hL
  obtain ⟨mR, hmR, hsR, hokR, hfailR, hldR, heR1, heR2⟩ := hR
  have hfin : fin = (List.foldl (fun s f => f s) st0.1
      (sideTaskUpds aL.id stL "Left model failed to respond".data oL),
    List.foldl (fun s f => f s) st0.2
      (sideTaskUpds aR.id stR "Right model failed to respond".data oR)) :=
    hrun
  refine ⟨⟨mL, ?_, hsL, ?_, hokL⟩, ⟨mR, ?_, hsR, ?_, hokR⟩, ?_, ?_, ?_, ?_⟩
  · rw [hfin]; exact hmL
  · intro hf
    exact ⟨(hfailL hf).2, (hfailL hf).1⟩
  · rw [hfin]; exact hmR
  · intro hf
    exact ⟨(hfailR hf).2, (hfailR hf).1⟩
  · rw [hfin]; exact hldL
  · rw [hfin]; exact hldR
  · intro hf
    rw [hfin]
    exact heL2 hf
  · intro hok
    rw [hfin]
    exact (heR1 hok).trans rfl

/-- Concrete user message for the join witness. -/
def wUser : Message :=
  { id := "1".data, role := Role.user, content := "q".data, timestamp := 0 }

/-- Concrete left assistant placeholder. -/
def wAL : Message :=
  { id := "2".data, role := Role.assistant, content := [], timestamp := 0,
    isStreaming := true }

/-- Concrete right assistant placeholder. -/
def wAR : Message :=
  { id := "3".data, role := Role.assistant, content := [], timestamp := 0,
    isStreaming := true }

/-- Left stream: one chunk then a thrown failure. -/
def wOL : StreamOutcome := { chunks := [("x".data, 1)], ok := false }

/-- Right stream: one chunk then normal completion. -/
def wOR : StreamOutcome := { chunks := [("hello".data, 1)], ok := true }

/-- A concrete schedule: all left updates, then all right updates. -/
def wWs : List ((ChatSide → ChatSide) ⊕ (ChatSide → ChatSide)) :=
  (sideTaskUpds wAL.id 0 "Left model failed to respond".data wOL).map Sum.inl
    ++ (sideTaskUpds wAR.id 0
        "Right model failed to respond".data wOR).map Sum.inr

/-- Witness: `comparison_join_isolation` at a concrete failing-left /
succeeding-right run. -/
theorem comparison_join_isolation_witness :
    ∃ mL mR,
      getMsg (runUpds
        ({ messages := [wUser, wAL], isLoading := true, error := none },
         { messages := [wUser, wAR], isLoading := true, error := none })
        wWs).1 "2".data = some mL
      ∧ mL.isStreaming = false
      ∧ mL.error = some "Failed to generate response".data
      ∧ mL.content = []
      ∧ getMsg (runUpds
        ({ messages := [wUser, wAL], isLoading := true, error := none },
         { messages := [wUser, wAR], isLoading := true, error := none })
        wWs).2 "3".data = some mR
      ∧ mR.isStreaming = false
      ∧ mR.content = "hello".data
      ∧ mR.error = none := by
  have h := comparison_join_isolation [] [] wUser wAL wAR 0 0 wOL wOR wWs
    (by simp) (by decide) (by simp) (by decide) rfl rfl rfl rfl
    (ilv_append _ _)
  obtain ⟨⟨mL, h1, h2, h3, -⟩, ⟨mR, h5, h6, -, h8⟩, -⟩ := h
  exact ⟨mL, mR, h1, h2, (h3 rfl).1, (h3 rfl).2, h5, h6,
    (h8 rfl).1.trans (by decide), (h8 rfl).2⟩

/-! ## sendMessage precondition guards (src/hooks/use-comparison-chat.ts and
the use-chat hook's sendMessage) -/

/-- `/^fw_[a-zA-Z0-9]{24}$/.test(key)`. -/
def isValidApiKeyFormat (key : Str) : Bool :=
  listStartsWith key "fw_".data && decide ((key.drop 3).length = 24)
    && (key.drop 3).all (fun c => c.isAlpha || c.isDigit)

/-- Truthiness of `state.sessionId` (absent or empty string is falsy). -/
def optStrTruthy : Option Str → Bool
  | none => false
  | some s => !s.isEmpty

/-- `apiKey?.trim() && isValidApiKeyFormat(apiKey.trim())` as a Boolean. -/
def hasValidApiKey : Option Str → Bool
  | none => false
  | some k => !(jsTrim k).isEmpty && isValidApiKeyFormat (jsTrim k)

/-- The comparison hook's state slice that `sendMessage` touches before its
first `await`. -/
structure CompHookState where
  leftChat : ChatSide
  rightChat : ChatSide
  comparisonId : Option Str
  speedTestError : Option Str
deriving DecidableEq, Repr

/-- The `POST /chat/compare/init` request issued by phase 1. -/
structure InitRequest where
  messages : List (Role × Str)
  model_keys : List Str
deriving DecidableEq, Repr

/-- Comparison `sendMessage` up to its first `await`
(`apiClient.initializeComparison`): the precondition guard, then the
synchronous optimistic update (user message and the two streaming assistant
placeholders, ids from `Date.now()`), returning the init request to send —
`none` when the guard made the call a silent no-op. -/
def comparisonSendMessagePhase1 (content : Str)
    (leftModel rightModel : Option ChatModel) (sessionId : Option Str)
    (apiKey : Option Str) (st : CompHookState) (now : Nat) :
    CompHookState × Option InitRequest :=
  match leftModel, rightModel with
  | some lm, some rm =>
    if jsTrim content = [] ∨ optStrTruthy sessionId = false
        ∨ hasValidApiKey apiKey = false then (st, none)
    else
      let userMessage : Message :=
        { id := natStr now, role := Role.user, content := jsTrim content,
          timestamp := now, sessionId := sessionId }
      let leftA : Message :=
        { id := natStr (now + 1), role := Role.assistant, content := [],
          timestamp := now, model := some lm.name, isStreaming := true,
          sessionId := sessionId }
      let rightA : Message :=
        { id := natStr (now + 2), role := Role.assistant, content := [],
          timestamp := now, model := some rm.name, isStreaming := true,
          sessionId := sessionId }
      let newLeft : ChatSide :=
        { messages := st.leftChat.messages ++ [userMessage, leftA], isLoading := true, error := none }
      let newRight : ChatSide :=
        { messages := st.rightChat.messages ++ [userMessage, rightA], isLoading := true, error := none }
      let newSt : CompHookState :=
        { leftChat := newLeft, rightChat := newRight, comparisonId := st.comparisonId, speedTestError := none }
      let req : InitRequest :=
        { messages := [(Role.user, jsTrim content)], model_keys := [lm.id, rm.id] }
      (newSt, some req)
  | _, _ => (st, none)

/-- The use-chat hook's `sendMessage` up to its guard and optimistic update
(“no longer require API key for free tier”: the credential is *not* part of
this guard).  The Boolean reports whether the call proceeds to its
background/network phase. -/
def singleSendMessagePhase1 (content : Str) (model : Option ChatModel)
    (sessionId : Option Str) (st : ChatSide) (now : Nat) : ChatSide × Bool :=
  match model with
  | some md =>
    if jsTrim content = [] ∨ optStrTruthy sessionId = false then (st, false)
    else
      let userMessage : Message :=
        { id := natStr now, role := Role.user, content := jsTrim content,
          timestamp := now, sessionId := sessionId }
      let assistantM : Message :=
        { id := natStr (now + 1), role := Role.assistant, content := [],
          timestamp := now, model := some md.name, isStreaming := true,
          sessionId := sessionId }
      ({ messages := st.messages ++ [userMessage, assistantM],
         isLoading := true, error := none }, true)
  | none => (st, false)

/-- C9: violating any `sendMessage` precondition is a silent no-op: with
empty/whitespace-only text, a missing model, a falsy session id, or (in the
comparison hook, where a credential is required) a missing or
format-invalid API key, the call returns with the state unchanged, no
message appended, no error surfaced, and no network request issued.  (The
single-chat hook's guard does not require a credential.) -/
theorem sendMessage_precondition_noop :
    (∀ (content : Str) (leftModel rightModel : Option ChatModel)
        (sessionId apiKey : Option Str) (st : CompHookState) (now : Nat),
      (jsTrim content = [] ∨ leftModel = none ∨ rightModel = none
        ∨ optStrTruthy sessionId = false ∨ hasValidApiKey apiKey = false) →
      comparisonSendMessagePhase1 content leftModel rightModel sessionId
        apiKey st now = (st, none)) ∧
    (∀ (content : Str) (model : Option ChatModel) (sessionId : Option Str)
        (st : ChatSide) (now : Nat),
      (jsTrim content = [] ∨ model = none
        ∨ optStrTruthy sessionId = false) →
      singleSendMessagePhase1 content model sessionId st now = (st, false)) := by
  constructor
  · intro content lM rM sid key st now h
    cases lM with
    | none => rfl
    | some lm =>
      cases rM with
      | none => rfl
      | some rm =>
        have hcond : jsTrim content = [] ∨ optStrTruthy sid = false
            ∨ hasValidApiKey key = false := by
          rcases h with h | h | h | h | h
          · exact Or.inl h
          · exact absurd h (by simp)
          · exact absurd h (by simp)
          · exact Or.inr (Or.inl h)
          · exact Or.inr (Or.inr h)
        simp only [comparisonSendMessagePhase1]
        rw [if_pos hcond]
  · intro content mo sid st now h
    cases mo with
    | none => rfl
    | some md =>
      have hcond : jsTrim content = [] ∨ optStrTruthy sid = false := by
        rcases h with h | h | h
        · exact Or.inl h
        · exact absurd h (by simp)
        · exact Or.inr h
      simp only [singleSendMessagePhase1]
      rw [if_pos hcond]

/-- A fresh comparison-hook state. -/
def wCompSt : CompHookState :=
  { leftChat := { messages := [], isLoading := false, error := none },
    rightChat := { messages := [], isLoading := false, error := none },
    comparisonId := none, speedTestError := none }

/-- Witness: the guards at whitespace-only text, at a missing credential,
and at a missing model. -/
theorem sendMessage_precondition_noop_witness :
    comparisonSendMessagePhase1 "  ".data (some (mkModel "a" "n" "p"))
        (some (mkModel "b" "n" "p")) (some "s1".data) (some "fw_x".data)
        wCompSt 7 = (wCompSt, none)
    ∧ comparisonSendMessagePhase1 "hi".data (some (mkModel "a" "n" "p"))
        (some (mkModel "b" "n" "p")) (some "s1".data) none wCompSt 7
      = (wCompSt, none)
    ∧ singleSendMessagePhase1 "hi".data none (some "s1".data)
        { messages := [], isLoading := false, error := none } 7
      = ({ messages := [], isLoading := false, error := none }, false) := by
  refine ⟨?_, ?_, ?_⟩
  · exact sendMessage_precondition_noop.1 "  ".data _ _ _ _ wCompSt 7
      (Or.inl (by decide))
  · exact sendMessage_precondition_noop.1 "hi".data _ _ _ _ wCompSt 7
      (Or.inr (Or.inr (Or.inr (Or.inr (by decide)))))
  · exact sendMessage_precondition_noop.2 "hi".data none _ _ 7
      (Or.inr (Or.inl rfl))

/-- Witness: `generateSessionId_spec` at concrete timestamps and counters,
including the counter-injectivity part at counters `0` and `1`. -/
theorem generateSessionId_spec_witness :
    validateSessionId (generateSessionId SessionType.single 42 0).1.id = true
    ∧ extractTimestamp (generateSessionId SessionType.single 42 0).1.id
        = some 42
    ∧ (generateSessionId SessionType.single 42 0).1.id
        ≠ (generateSessionId SessionType.comparison 42 1).1.id := by
  have h := generateSessionId_spec SessionType.single SessionType.comparison
    42 42 0
  exact ⟨h.1, h.2.1, h.2.2.2.2.2 42 42 0 1 (by decide)⟩
